import Mathlib

/-!
Element connection grid: patch matrix synchronisation

A shallow embedding of `Source/gui/ConnectionGrid.cpp` (class
`ConnectionGrid::PatchMatrix` and the free function `connectionExists`).

* `uint32` node ids and port indexes are natural numbers; the conversions
  `static_cast<int> (uint32)` and `(int) var` are the explicit wrap `toInt32`.
* The JUCE `ValueTree` handles are split into what the code reads from them:
  the identity of the handle (`TreeRef`, compared by `==`), the type of a child
  (`Identifier`), the children of the node collection (`Graph.nodes`) and the
  children of the sibling arc list (`Graph.arcs`).
* Painting, repainting and list-box refreshes do not touch the state below and
  are left out.
-/

namespace Element

/-! ## The graph model (types of the missing `session/NodeModel.h`) -/

/-- Modelled from the spec: the media type of a port (`PortType` is declared in
a header that is not part of the sources); only `Audio` takes part in the
matrix. -/
inductive PortType where
  | Control
  | Audio
  | Cv
  | Atom
  | Midi
  deriving DecidableEq, Repr

/-- Modelled from the spec: a port of a node, with the three accessors the grid
calls: `getType()`, `isInput()` and `getIndex()` (a `uint32` when passed on). -/
structure Port where
  type : PortType
  input : Bool
  index : Nat
  deriving DecidableEq, Repr

/-- Accessor `Port::getType`. -/
def Port.getType (p : Port) : PortType := p.type

/-- Accessor `Port::isInput`. -/
def Port.isInput (p : Port) : Bool := p.input

/-- Accessor `Port::getIndex`. -/
def Port.getIndex (p : Port) : Nat := p.index

/-- Modelled from the spec: a node of the graph, with its stable id
(`getNodeId()`, a `uint32`) and the ordered children of `getPortsValueTree()`. -/
structure Node where
  nodeId : Nat
  ports : List Port
  deriving DecidableEq, Repr

/-- Accessor `Node::getNodeId`. -/
def Node.getNodeId (n : Node) : Nat := n.nodeId

/-- Accessor `Node::getPortsValueTree`, as the ordered list of its children. -/
def Node.getPortsValueTree (n : Node) : List Port := n.ports

/-- The default-constructed `Node()` that `Array::operator[]` hands back for an
index outside the array. -/
def Node.invalid : Node := { nodeId := 0, ports := [] }

/-- An arc of the model: the four integer properties `sourceNode`, `sourcePort`,
`destNode` and `destPort` of an arc child, as stored in the tree. -/
structure Arc where
  sourceNode : Int
  sourcePort : Int
  destNode : Int
  destPort : Int
  deriving DecidableEq, Repr

/-- The node collection observed by the grid together with the arc list that is
its sibling (`nodeModels.getParent().getChildWithName (Tags::arcs)`, which is
also what `Node::getParentArcsNode` gives for a node of the collection). -/
structure Graph where
  nodes : List Node
  arcs : List Arc
  deriving DecidableEq, Repr

/-- Identity of a `ValueTree` handle; `operator==` on trees compares it. -/
abbrev TreeRef := Nat

/-- A JUCE `Identifier`, the type name of a tree. -/
abbrev Identifier := String

/-- The identifier `Tags::node`. -/
def Tags.node : Identifier := "node"

/-- The identifier `Tags::arc`. -/
def Tags.arc : Identifier := "arc"

/-! ## Integer conversions -/

/-- Conversion to a 32-bit `int`: the value modulo `2^32`, taken in
`[-2^31, 2^31)`; this is both `static_cast<int> (uint32)` and `(int) var`. -/
def toInt32 (x : Int) : Int := (x + 2 ^ 31) % 2 ^ 32 - 2 ^ 31

/-- The comparison made for one arc by `connectionExists` and by the
`(uint32, uint32, uint32, uint32)` overload of `findArc`. -/
def arcMatches (sourceNode sourcePort destNode destPort : Nat) (arc : Arc) : Bool :=
  toInt32 (sourceNode : Int) == toInt32 arc.sourceNode &&
  toInt32 (sourcePort : Int) == toInt32 arc.sourcePort &&
  toInt32 (destNode : Int) == toInt32 arc.destNode &&
  toInt32 (destPort : Int) == toInt32 arc.destPort

/-- The free function `connectionExists`: scan the arcs from the last child to
the first and report whether one matches. -/
def connectionExists (arcs : List Arc) (sourceNode sourcePort destNode destPort : Nat) : Bool :=
  arcs.reverse.any (arcMatches sourceNode sourcePort destNode destPort)

/-- The overload `PatchMatrix::findArc (arcs, uint32, uint32, uint32, uint32)`:
scan from the last child to the first and return the first matching arc, or
`none` for `ValueTree::invalid`. -/
def findArc (arcs : List Arc) (sourceNode sourcePort destNode destPort : Nat) : Option Arc :=
  arcs.reverse.find? (arcMatches sourceNode sourcePort destNode destPort)

/-! ## The dense matrix -/

/-- Modelled from the spec: `MatrixState` (declared in a header that is not part
of the sources), a dense boolean grid with its dimensions. -/
structure MatrixState where
  numRows : Nat
  numColumns : Nat
  cells : Nat → Nat → Bool

namespace MatrixState

/-- Modelled from the spec: the default-constructed, empty `MatrixState`. -/
def empty : MatrixState := { numRows := 0, numColumns := 0, cells := fun _ _ => false }

/-- Accessor `getNumRows`. -/
def getNumRows (m : MatrixState) : Nat := m.numRows

/-- Accessor `getNumColumns`. -/
def getNumColumns (m : MatrixState) : Nat := m.numColumns

/-- Modelled from the spec: `resize (rows, cols)` reallocates the storage; prior
state outside the new or the old range is discarded. -/
def resize (m : MatrixState) (rows cols : Nat) : MatrixState :=
  { numRows := rows
    numColumns := cols
    cells := fun r c =>
      decide (r < rows ∧ c < cols ∧ r < m.numRows ∧ c < m.numColumns) && m.cells r c }

/-- Modelled from the spec: bounds-checked write of one cell; an out-of-range
call fails (`none` stands for the InvalidIndex error). -/
def set (m : MatrixState) (row col : Nat) (value : Bool) : Option MatrixState :=
  if row < m.numRows ∧ col < m.numColumns then
    some { m with cells := fun r c => if r = row ∧ c = col then value else m.cells r c }
  else none

/-- Modelled from the spec: `connect (r, c)`. -/
def connect (m : MatrixState) (row col : Nat) : Option MatrixState := m.set row col true

/-- Modelled from the spec: `disconnect (r, c)`. -/
def disconnect (m : MatrixState) (row col : Nat) : Option MatrixState := m.set row col false

/-- Modelled from the spec: the query `connected (r, c)`. -/
def connected (m : MatrixState) (row col : Nat) : Bool := m.cells row col

/-- Modelled from the spec: `isEmpty`, true iff there are no rows or no columns. -/
def isEmpty (m : MatrixState) : Bool := m.numRows == 0 || m.numColumns == 0

end MatrixState

/-! ## Requests posted to the message channel -/

/-- The messages posted with `ViewHelpers::postMessageFor`. -/
inductive Message where
  | AddConnectionMessage (sourceNode sourcePort destNode destPort : Nat)
  | RemoveConnectionMessage (sourceNode sourcePort destNode destPort : Nat)
  | RemoveNodeMessage (node : Node)
  | LoadPluginMessage (pluginFormatName fileOrIdentifier : String)
  deriving DecidableEq, Repr

/-- The part of a `MouseEvent` the handlers read: `ev.mods.isPopupMenu()`. -/
structure MouseEvent where
  isPopupMenu : Bool
  deriving DecidableEq, Repr

/-! ## The patch matrix component -/

/-- The data members of `ConnectionGrid::PatchMatrix` that carry the model
state. -/
structure PatchMatrix where
  matrix : MatrixState
  nodeModels : TreeRef
  nodes : List Node
  ins : List Port
  outs : List Port
  audioInIndexes : List Nat
  audioOutIndexes : List Nat
  audioInChannels : List Nat
  audioOutChannels : List Nat

namespace PatchMatrix

/-- The state left by the constructor: an empty matrix and empty tables,
observing the tree `nodeModels`. -/
def init (nodeModels : TreeRef) : PatchMatrix :=
  { matrix := MatrixState.empty, nodeModels := nodeModels, nodes := [],
    ins := [], outs := [], audioInIndexes := [], audioOutIndexes := [],
    audioInChannels := [], audioOutChannels := [] }

/-- The method `getNode`: both `Array::operator[]` lookups return the default
value (`0`, `Node()`) when the index is outside the array. -/
def getNode (pm : PatchMatrix) (index : Nat) (isSource : Bool) : Node :=
  pm.nodes.getD ((if isSource then pm.audioOutIndexes else pm.audioInIndexes).getD index 0)
    Node.invalid

/-- The method `getPort`: `getUnchecked` behind an assertion that the index is
in range; `none` when the assertion fails. -/
def getPort (pm : PatchMatrix) (index : Nat) (isSource : Bool) : Option Port :=
  (if isSource then pm.outs else pm.ins)[index]?

/-- The method `getAudioChannelForIndex`: `getUnchecked` on the channel table. -/
def getAudioChannelForIndex (pm : PatchMatrix) (index : Nat) (isSource : Bool) : Option Nat :=
  (if isSource then pm.audioOutChannels else pm.audioInChannels)[index]?

/-- The method `getNumRows`. -/
def getNumRows (pm : PatchMatrix) : Nat := pm.matrix.getNumRows

/-- The method `getNumColumns`. -/
def getNumColumns (pm : PatchMatrix) : Nat := pm.matrix.getNumColumns

/-- The method `matrixCellClicked`. `canConnectTo` is `Node::canConnectTo` (not
part of the sources) and `arcs` the children of `srcNode.getParentArcsNode()`.
The result is the new state and the messages posted, in order. -/
def matrixCellClicked (canConnectTo : Node → Node → Bool) (arcs : List Arc)
    (pm : PatchMatrix) (row col : Nat) (ev : MouseEvent) :
    Option (PatchMatrix × List Message) :=
  let srcNode := pm.getNode row true
  match pm.getPort row true with
  | none => none
  | some srcPort =>
    let dstNode := pm.getNode col false
    match pm.getPort col false with
    | none => none
    | some dstPort =>
      if ev.isPopupMenu then
        some (pm, [])
      else if !canConnectTo srcNode dstNode then
        match pm.matrix.disconnect row col with
        | none => none
        | some m => some ({ pm with matrix := m }, [])
      else if connectionExists arcs srcNode.getNodeId srcPort.getIndex
                dstNode.getNodeId dstPort.getIndex then
        match pm.matrix.disconnect row col with
        | none => none
        | some m =>
          some ({ pm with matrix := m },
                [Message.RemoveConnectionMessage srcNode.getNodeId srcPort.getIndex
                  dstNode.getNodeId dstPort.getIndex])
      else
        match pm.matrix.connect row col with
        | none => none
        | some m =>
          some ({ pm with matrix := m },
                [Message.AddConnectionMessage srcNode.getNodeId srcPort.getIndex
                  dstNode.getNodeId dstPort.getIndex])

/-- The body of the inner loop of `resetMatrix` for one `(row, col)`. -/
def resetCell (arcs : List Arc) (pm : PatchMatrix) (row col : Nat) : Option PatchMatrix :=
  let src := pm.getNode row true
  match pm.getPort row true with
  | none => none
  | some srcPort =>
    let dst := pm.getNode col false
    match pm.getPort col false with
    | none => none
    | some dstPort =>
      let arc := findArc arcs src.getNodeId srcPort.getIndex dst.getNodeId dstPort.getIndex
      match (if arc.isSome then pm.matrix.connect row col else pm.matrix.disconnect row col) with
      | none => none
      | some m => some { pm with matrix := m }

/-- The method `resetMatrix`: for every row and every column of the matrix, in
order, look the arc up and connect or disconnect the cell. `arcs` are the
children of `nodeModels.getParent().getChildWithName (Tags::arcs)`. The loop
bounds are read once: no step of the loop changes the dimensions. -/
def resetMatrix (arcs : List Arc) (pm : PatchMatrix) : Option PatchMatrix :=
  (List.range pm.matrix.getNumRows).foldlM
    (fun acc row =>
      (List.range pm.matrix.getNumColumns).foldlM
        (fun acc col => resetCell arcs acc row col) acc)
    pm

end PatchMatrix

/-- The tables and counters that `updateContent` fills while it scans. -/
structure IndexTables where
  audioInIndexes : List Nat
  audioOutIndexes : List Nat
  audioInChannels : List Nat
  audioOutChannels : List Nat
  ins : List Port
  outs : List Port
  newNumRows : Nat
  newNumCols : Nat

/-- The tables after the `clearQuick` calls, counters at zero. -/
def IndexTables.cleared : IndexTables :=
  { audioInIndexes := [], audioOutIndexes := [], audioInChannels := [],
    audioOutChannels := [], ins := [], outs := [], newNumRows := 0, newNumCols := 0 }

/-- The inner loop of `updateContent` over the ports of one node, from child
`i` on: non-audio ports are skipped, audio inputs are appended to the column
tables and every other audio port to the row tables. -/
def scanPorts (nodeIndex : Nat) : List Port → Nat → IndexTables → IndexTables
  | [], _, t => t
  | port :: rest, i, t =>
    if port.getType ≠ PortType.Audio then
      scanPorts nodeIndex rest (i + 1) t
    else if port.isInput then
      scanPorts nodeIndex rest (i + 1)
        { t with audioInIndexes := t.audioInIndexes ++ [nodeIndex]
                 audioInChannels := t.audioInChannels ++ [i]
                 ins := t.ins ++ [port]
                 newNumCols := t.newNumCols + 1 }
    else
      scanPorts nodeIndex rest (i + 1)
        { t with audioOutIndexes := t.audioOutIndexes ++ [nodeIndex]
                 audioOutChannels := t.audioOutChannels ++ [i]
                 outs := t.outs ++ [port]
                 newNumRows := t.newNumRows + 1 }

/-- The outer loop of `updateContent` over the node array, `nodeIndex` counting
the nodes already scanned. -/
def scanNodes : List Node → Nat → IndexTables → IndexTables
  | [], _, t => t
  | node :: rest, nodeIndex, t =>
    scanNodes rest (nodeIndex + 1) (scanPorts nodeIndex node.getPortsValueTree 0 t)

namespace PatchMatrix

/-- The method `updateContent`: clear and refill the index tables from the node
array, resize the matrix to the counted dimensions and run `resetMatrix`. -/
def updateContent (arcs : List Arc) (pm : PatchMatrix) : Option PatchMatrix :=
  let t := scanNodes pm.nodes 0 IndexTables.cleared
  resetMatrix arcs
    { pm with
      audioInIndexes := t.audioInIndexes
      audioOutIndexes := t.audioOutIndexes
      audioInChannels := t.audioInChannels
      audioOutChannels := t.audioOutChannels
      ins := t.ins
      outs := t.outs
      matrix := pm.matrix.resize t.newNumRows t.newNumCols }

/-- The method `buildNodeArray`: copy the children of `nodeModels` into the node
array, then `updateContent`. -/
def buildNodeArray (g : Graph) (pm : PatchMatrix) : Option PatchMatrix :=
  updateContent g.arcs { pm with nodes := g.nodes }

/-- The listener `valueTreePropertyChanged`: empty body, nothing posted. -/
def valueTreePropertyChanged (pm : PatchMatrix) (_treeWhosePropertyHasChanged : TreeRef)
    (_property : Identifier) : Option (PatchMatrix × List Message) := some (pm, [])

/-- The listener `valueTreeChildAdded`; `childType` is the type of the added
child, `g` what `nodeModels` refers to when the notification arrives. The
rebuild posts no message. -/
def valueTreeChildAdded (g : Graph) (pm : PatchMatrix) (parentTree : TreeRef)
    (childType : Identifier) : Option (PatchMatrix × List Message) :=
  if pm.nodeModels = parentTree ∧ childType = Tags.node then
    (buildNodeArray g pm).map (fun pm1 => (pm1, []))
  else some (pm, [])

/-- The listener `valueTreeChildRemoved`. -/
def valueTreeChildRemoved (g : Graph) (pm : PatchMatrix) (parentTree : TreeRef)
    (childType : Identifier) (_indexFromWhichChildWasRemoved : Int) :
    Option (PatchMatrix × List Message) :=
  if pm.nodeModels = parentTree ∧ childType = Tags.node then
    (buildNodeArray g pm).map (fun pm1 => (pm1, []))
  else some (pm, [])

/-- The listener `valueTreeChildOrderChanged`: empty body, nothing posted. -/
def valueTreeChildOrderChanged (pm : PatchMatrix) (_parentTreeWhoseChildrenHaveMoved : TreeRef)
    (_oldIndex _newIndex : Int) : Option (PatchMatrix × List Message) := some (pm, [])

/-- The listener `valueTreeParentChanged`: empty body, nothing posted. -/
def valueTreeParentChanged (pm : PatchMatrix) (_treeWhoseParentHasChanged : TreeRef) :
    Option (PatchMatrix × List Message) := some (pm, [])

/-- The listener `valueTreeRedirected`: return at once unless the tree is
`nodeModels`; otherwise `buildNodeArray` followed by `resetMatrix`. -/
def valueTreeRedirected (g : Graph) (pm : PatchMatrix) (treeWhichHasBeenChanged : TreeRef) :
    Option (PatchMatrix × List Message) :=
  if pm.nodeModels ≠ treeWhichHasBeenChanged then some (pm, [])
  else
    match buildNodeArray g pm with
    | none => none
    | some pm1 => (resetMatrix g.arcs pm1).map (fun pm2 => (pm2, []))

end PatchMatrix

/-! ## The header context menu -/

/-- The item id `NodePopupMenu::Duplicate`. -/
def NodePopupMenu.Duplicate : Int := 1

/-- The item id `NodePopupMenu::RemoveNode`. -/
def NodePopupMenu.RemoveNode : Int := 2

/-- The item id `NodePopupMenu::AddAudioInputNode`. -/
def NodePopupMenu.AddAudioInputNode : Int := 3

/-- The item id `NodePopupMenu::AddAudioOutputNode`. -/
def NodePopupMenu.AddAudioOutputNode : Int := 4

/-- The method `PatchMatrix::showMenuForNode`: `menuResult` is what `menu.show()`
returns, the id of the chosen item or `0` when the menu is dismissed. The
result is the state and the messages posted. -/
def PatchMatrix.showMenuForNode (pm : PatchMatrix) (node : Node) (menuResult : Int) :
    PatchMatrix × List Message :=
  if menuResult = NodePopupMenu.RemoveNode then
    (pm, [Message.RemoveNodeMessage node])
  else if menuResult = NodePopupMenu.AddAudioInputNode then
    (pm, [Message.LoadPluginMessage "Internal" "audio.input"])
  else if menuResult = NodePopupMenu.AddAudioOutputNode then
    (pm, [Message.LoadPluginMessage "Internal" "audio.output"])
  else
    (pm, [])

/-- The method `Sources::listBoxItemClicked` (the row headers), acting on the
patch matrix it points to. -/
def Sources.listBoxItemClicked (pm : PatchMatrix) (row : Nat) (ev : MouseEvent)
    (menuResult : Int) : PatchMatrix × List Message :=
  if !ev.isPopupMenu then (pm, [])
  else
    let node := pm.getNode row true
    pm.showMenuForNode node menuResult

/-- The method `Destinations::listBoxItemClicked` (the column headers), acting
on the patch matrix it points to; the node is looked up with `getNode (row,
true)`, as in the source. -/
def Destinations.listBoxItemClicked (pm : PatchMatrix) (row : Nat) (ev : MouseEvent)
    (menuResult : Int) : PatchMatrix × List Message :=
  if !ev.isPopupMenu then (pm, [])
  else
    let node := pm.getNode row true
    pm.showMenuForNode node menuResult

/-! ## The model's side of the message channel -/

/-- The arc that a connection request names. -/
def Arc.ofRequest (sourceNode sourcePort destNode destPort : Nat) : Arc :=
  { sourceNode := sourceNode, sourcePort := sourcePort,
    destNode := destNode, destPort := destPort }

/-- Modelled from the spec: how the graph model (its message handler is not part
of the sources) applies a request to the arc list. An add-connection request
appends the arc unless the list already has it (no two arcs share a 4-tuple), a
remove-connection request takes that arc out, and the other requests leave the
arc list as it is. -/
def applyRequest (arcs : List Arc) : Message → List Arc
  | Message.AddConnectionMessage sn sp dn dp =>
    if Arc.ofRequest sn sp dn dp ∈ arcs then arcs else arcs ++ [Arc.ofRequest sn sp dn dp]
  | Message.RemoveConnectionMessage sn sp dn dp =>
    arcs.filter (fun a => decide (a ≠ Arc.ofRequest sn sp dn dp))
  | Message.RemoveNodeMessage _ => arcs
  | Message.LoadPluginMessage _ _ => arcs

/-! ## Typing conditions -/

/-- An arc whose four properties are `uint32` values. -/
def Arc.WellFormed (a : Arc) : Prop :=
  (0 ≤ a.sourceNode ∧ a.sourceNode < 2 ^ 32) ∧ (0 ≤ a.sourcePort ∧ a.sourcePort < 2 ^ 32) ∧
  (0 ≤ a.destNode ∧ a.destNode < 2 ^ 32) ∧ (0 ≤ a.destPort ∧ a.destPort < 2 ^ 32)

instance (a : Arc) : Decidable a.WellFormed := by
  unfold Arc.WellFormed; infer_instance

/-- A node whose id and port indexes are `uint32` values. -/
def Node.WellFormed (n : Node) : Prop :=
  n.nodeId < 2 ^ 32 ∧ ∀ p ∈ n.ports, p.index < 2 ^ 32

instance (n : Node) : Decidable n.WellFormed := by
  unfold Node.WellFormed; infer_instance

/-- A component state whose node ids and port indexes are `uint32` values. -/
def PatchMatrix.WellFormed (pm : PatchMatrix) : Prop :=
  (∀ n ∈ pm.nodes, n.nodeId < 2 ^ 32) ∧ (∀ p ∈ pm.outs, p.index < 2 ^ 32) ∧
  (∀ p ∈ pm.ins, p.index < 2 ^ 32)

instance (pm : PatchMatrix) : Decidable pm.WellFormed := by
  unfold PatchMatrix.WellFormed; infer_instance

/-! ## Specification-side definitions -/

/-- Replace the cells of the matrix, keeping everything else. -/
def PatchMatrix.withCells (pm : PatchMatrix) (f : Nat → Nat → Bool) : PatchMatrix :=
  { pm with matrix := { pm.matrix with cells := f } }

/-- The cells of a matrix after cell `(row, col)` is given `value`. -/
def setCell (f : Nat → Nat → Bool) (row col : Nat) (value : Bool) : Nat → Nat → Bool :=
  fun r c => if r = row ∧ c = col then value else f r c

/-- The value `resetMatrix` gives to cell `(row, col)`: whether `findArc` finds
an arc for the ids and port indexes the tables give for that row and column. -/
def PatchMatrix.expectedCell (arcs : List Arc) (pm : PatchMatrix) (row col : Nat) : Bool :=
  match pm.getPort row true, pm.getPort col false with
  | some srcPort, some dstPort =>
    (findArc arcs (pm.getNode row true).getNodeId srcPort.getIndex
      (pm.getNode col false).getNodeId dstPort.getIndex).isSome
  | _, _ => false

/-- The audio ports of one direction among `ports`, in declaration order, each
with the node index and its position; positions count from `i`. -/
def portEntries (input : Bool) (nodeIndex : Nat) (ports : List Port) (i : Nat) :
    List (Nat × Nat × Port) :=
  ((ports.enumFrom i).filter
    (fun e => decide (e.2.type = PortType.Audio) && (e.2.input == input))).map
    (fun e => (nodeIndex, e.1, e.2))

/-- The audio ports of one direction over `nodes`, node by node in collection
order; node indexes count from `k`. -/
def nodeEntries (input : Bool) (nodes : List Node) (k : Nat) : List (Nat × Nat × Port) :=
  (nodes.enumFrom k).flatMap (fun q => portEntries input q.1 q.2.ports 0)

/-- The row table the spec asks for: the (node index, port position) pairs of
all audio output ports, by node in collection order and by port in declaration
order. -/
def specRowTable (nodes : List Node) : List (Nat × Nat) :=
  (nodeEntries false nodes 0).map (fun e => (e.1, e.2.1))

/-- The column table the spec asks for: the same pairs for all audio input
ports. -/
def specColumnTable (nodes : List Node) : List (Nat × Nat) :=
  (nodeEntries true nodes 0).map (fun e => (e.1, e.2.1))

/-- The number of audio output ports over all nodes. -/
def countAudioOutputs (nodes : List Node) : Nat :=
  (nodes.map (fun n =>
    n.ports.countP (fun p => decide (p.type = PortType.Audio) && !p.input))).sum

/-- The number of audio input ports over all nodes. -/
def countAudioInputs (nodes : List Node) : Nat :=
  (nodes.map (fun n =>
    n.ports.countP (fun p => decide (p.type = PortType.Audio) && p.input))).sum

/-- Append entries to the row tables and to the column tables. -/
def IndexTables.extend (t : IndexTables) (rows cols : List (Nat × Nat × Port)) : IndexTables :=
  { audioInIndexes := t.audioInIndexes ++ cols.map (fun e => e.1)
    audioOutIndexes := t.audioOutIndexes ++ rows.map (fun e => e.1)
    audioInChannels := t.audioInChannels ++ cols.map (fun e => e.2.1)
    audioOutChannels := t.audioOutChannels ++ rows.map (fun e => e.2.1)
    ins := t.ins ++ cols.map (fun e => e.2.2)
    outs := t.outs ++ rows.map (fun e => e.2.2)
    newNumRows := t.newNumRows + rows.length
    newNumCols := t.newNumCols + cols.length }

/-- The state of `updateContent` just before it calls `resetMatrix`: tables
refilled, matrix resized. -/
def PatchMatrix.indexed (pm : PatchMatrix) : PatchMatrix :=
  { pm with
    audioInIndexes := (nodeEntries true pm.nodes 0).map (fun e => e.1)
    audioOutIndexes := (nodeEntries false pm.nodes 0).map (fun e => e.1)
    audioInChannels := (nodeEntries true pm.nodes 0).map (fun e => e.2.1)
    audioOutChannels := (nodeEntries false pm.nodes 0).map (fun e => e.2.1)
    ins := (nodeEntries true pm.nodes 0).map (fun e => e.2.2)
    outs := (nodeEntries false pm.nodes 0).map (fun e => e.2.2)
    matrix := pm.matrix.resize (nodeEntries false pm.nodes 0).length
      (nodeEntries true pm.nodes 0).length }

/-- The state `updateContent` returns: the refilled tables, every cell inside
the new dimensions set from the arc list. -/
def PatchMatrix.rebuilt (arcs : List Arc) (pm : PatchMatrix) : PatchMatrix :=
  pm.indexed.withCells (fun i j =>
    if i < (nodeEntries false pm.nodes 0).length ∧ j < (nodeEntries true pm.nodes 0).length
    then pm.indexed.expectedCell arcs i j
    else pm.indexed.matrix.cells i j)

/-! ## Example models -/

/-- A compatibility predicate that rejects a node paired with itself. -/
def noSelfConnect (src dst : Node) : Bool := src.nodeId != dst.nodeId

/-- Node A of the scenario: id 1, two audio outputs. -/
def scenarioNodeA : Node :=
  { nodeId := 1, ports := [⟨PortType.Audio, false, 0⟩, ⟨PortType.Audio, false, 1⟩] }

/-- Node B of the scenario: id 2, two audio inputs. -/
def scenarioNodeB : Node :=
  { nodeId := 2, ports := [⟨PortType.Audio, true, 0⟩, ⟨PortType.Audio, true, 1⟩] }

/-- The scenario graph: nodes A and B, no arcs. -/
def scenarioGraph : Graph := { nodes := [scenarioNodeA, scenarioNodeB], arcs := [] }

/-- A fresh component whose node array holds the scenario nodes. -/
def scenarioStart : PatchMatrix := { PatchMatrix.init 0 with nodes := scenarioGraph.nodes }

/-- The component after a rebuild from the scenario graph. -/
def scenarioState : PatchMatrix :=
  (PatchMatrix.buildNodeArray scenarioGraph (PatchMatrix.init 0)).getD (PatchMatrix.init 0)

/-- A node with a midi input, an audio output and an audio input. -/
def selfLoopNode : Node :=
  { nodeId := 1,
    ports := [⟨PortType.Midi, true, 0⟩, ⟨PortType.Audio, false, 1⟩, ⟨PortType.Audio, true, 2⟩] }

/-- A graph whose arc list holds an arc from `selfLoopNode` to itself. -/
def selfLoopGraph : Graph :=
  { nodes := [selfLoopNode], arcs := [⟨1, 1, 1, 2⟩] }

/-- The component after a rebuild from `selfLoopGraph`. -/
def selfLoopState : PatchMatrix :=
  (PatchMatrix.buildNodeArray selfLoopGraph (PatchMatrix.init 0)).getD (PatchMatrix.init 0)

/-! ## Lemmas: integer conversions and the arc lookup -/

theorem toInt32_inj_of_range {a b : Int} (ha : 0 ≤ a ∧ a < 2 ^ 32) (hb : 0 ≤ b ∧ b < 2 ^ 32) :
    toInt32 a = toInt32 b ↔ a = b := by
  unfold toInt32
  constructor
  · intro h
    omega
  · intro h
    rw [h]

theorem arcMatches_iff (sn sp dn dp : Nat) (a : Arc) (ha : a.WellFormed)
    (hsn : sn < 2 ^ 32) (hsp : sp < 2 ^ 32) (hdn : dn < 2 ^ 32) (hdp : dp < 2 ^ 32) :
    arcMatches sn sp dn dp a = true ↔ a = Arc.ofRequest sn sp dn dp := by
  obtain ⟨h1, h2, h3, h4⟩ := ha
  have e1 := toInt32_inj_of_range (a := (sn : Int)) (b := a.sourceNode) ⟨by omega, by omega⟩ h1
  have e2 := toInt32_inj_of_range (a := (sp : Int)) (b := a.sourcePort) ⟨by omega, by omega⟩ h2
  have e3 := toInt32_inj_of_range (a := (dn : Int)) (b := a.destNode) ⟨by omega, by omega⟩ h3
  have e4 := toInt32_inj_of_range (a := (dp : Int)) (b := a.destPort) ⟨by omega, by omega⟩ h4
  cases a
  simp only [arcMatches, Bool.and_eq_true, beq_iff_eq, e1, e2, e3, e4, Arc.ofRequest,
    Arc.mk.injEq]
  constructor
  · rintro ⟨⟨⟨h1, h2⟩, h3⟩, h4⟩
    exact ⟨h1.symm, h2.symm, h3.symm, h4.symm⟩
  · rintro ⟨h1, h2, h3, h4⟩
    exact ⟨⟨⟨h1.symm, h2.symm⟩, h3.symm⟩, h4.symm⟩

theorem arcMatches_ofRequest (sn sp dn dp : Nat) :
    arcMatches sn sp dn dp (Arc.ofRequest sn sp dn dp) = true := by
  simp [arcMatches, Arc.ofRequest]

theorem connectionExists_eq_findArc (arcs : List Arc) (sn sp dn dp : Nat) :
    connectionExists arcs sn sp dn dp = (findArc arcs sn sp dn dp).isSome := by
  unfold connectionExists findArc
  rw [Bool.eq_iff_iff]
  simp [List.find?_isSome]

theorem connectionExists_iff (arcs : List Arc) (sn sp dn dp : Nat) :
    connectionExists arcs sn sp dn dp = true ↔ ∃ a ∈ arcs, arcMatches sn sp dn dp a = true := by
  simp [connectionExists]

theorem connectionExists_iff_mem (arcs : List Arc) (sn sp dn dp : Nat)
    (ha : ∀ a ∈ arcs, a.WellFormed)
    (hsn : sn < 2 ^ 32) (hsp : sp < 2 ^ 32) (hdn : dn < 2 ^ 32) (hdp : dp < 2 ^ 32) :
    connectionExists arcs sn sp dn dp = true ↔ Arc.ofRequest sn sp dn dp ∈ arcs := by
  rw [connectionExists_iff]
  constructor
  · rintro ⟨a, hmem, hm⟩
    rw [arcMatches_iff sn sp dn dp a (ha a hmem) hsn hsp hdn hdp] at hm
    exact hm ▸ hmem
  · intro hmem
    exact ⟨_, hmem, arcMatches_ofRequest sn sp dn dp⟩

/-! ## Lemmas: the rebuild -/

open PatchMatrix

theorem resetCell_withCells (arcs : List Arc) (pm : PatchMatrix) (f : Nat → Nat → Bool)
    (row col : Nat) (hr : row < pm.outs.length) (hc : col < pm.ins.length)
    (hr2 : row < pm.matrix.numRows) (hc2 : col < pm.matrix.numColumns) :
    resetCell arcs (pm.withCells f) row col =
      some (pm.withCells (fun i j =>
        if i = row ∧ j = col then pm.expectedCell arcs row col else f i j)) := by
  obtain ⟨sp, hsp⟩ : ∃ sp, pm.getPort row true = some sp :=
    ⟨pm.outs[row], by simp [getPort, hr]⟩
  obtain ⟨dp, hdp⟩ : ∃ dp, pm.getPort col false = some dp :=
    ⟨pm.ins[col], by simp [getPort, hc]⟩
  have hn : ∀ i s, (pm.withCells f).getNode i s = pm.getNode i s := fun _ _ => rfl
  have hp : ∀ i s, (pm.withCells f).getPort i s = pm.getPort i s := fun _ _ => rfl
  have hm : (pm.withCells f).matrix = { pm.matrix with cells := f } := rfl
  unfold resetCell expectedCell
  simp only [hn, hp, hsp, hdp, hm]
  cases (findArc arcs (pm.getNode row true).getNodeId sp.getIndex
      (pm.getNode col false).getNodeId dp.getIndex).isSome <;>
    simp [withCells, MatrixState.connect, MatrixState.disconnect, MatrixState.set, hr2, hc2]

theorem resetRow_withCells (arcs : List Arc) (pm : PatchMatrix) (row : Nat)
    (hr : row < pm.outs.length) (hr2 : row < pm.matrix.numRows) :
    ∀ (cs : List Nat) (f : Nat → Nat → Bool),
      (∀ c ∈ cs, c < pm.ins.length ∧ c < pm.matrix.numColumns) →
      cs.foldlM (fun acc col => resetCell arcs acc row col) (pm.withCells f) =
        some (pm.withCells (fun i j =>
          if i = row ∧ j ∈ cs then pm.expectedCell arcs i j else f i j)) := by
  intro cs
  induction cs with
  | nil => intro f _; simp
  | cons c cs ih =>
    intro f h
    have hc := h c (List.mem_cons_self _ _)
    rw [List.foldlM_cons, resetCell_withCells arcs pm f row c hr hc.1 hr2 hc.2]
    simp only [Option.some_bind, Option.bind_eq_bind]
    rw [ih _ (fun c' hc' => h c' (List.mem_cons_of_mem _ hc'))]
    congr 2
    funext i j
    by_cases hi : i = row <;> by_cases hj : j = c <;> by_cases hm : j ∈ cs <;> simp [hi, hj, hm]

theorem resetRows_withCells (arcs : List Arc) (pm : PatchMatrix) (n : Nat)
    (hn : n ≤ pm.ins.length) (hn2 : n ≤ pm.matrix.numColumns) :
    ∀ (rs : List Nat) (f : Nat → Nat → Bool),
      (∀ r ∈ rs, r < pm.outs.length ∧ r < pm.matrix.numRows) →
      rs.foldlM (fun acc row =>
          (List.range n).foldlM (fun acc col => resetCell arcs acc row col) acc)
          (pm.withCells f) =
        some (pm.withCells (fun i j =>
          if i ∈ rs ∧ j < n then pm.expectedCell arcs i j else f i j)) := by
  intro rs
  induction rs with
  | nil => intro f _; simp
  | cons r rs ih =>
    intro f h
    have hr := h r (List.mem_cons_self _ _)
    have hcs : ∀ c ∈ List.range n, c < pm.ins.length ∧ c < pm.matrix.numColumns := by
      intro c hc
      have := List.mem_range.1 hc
      omega
    rw [List.foldlM_cons, resetRow_withCells arcs pm r hr.1 hr.2 _ f hcs]
    simp only [Option.some_bind, Option.bind_eq_bind]
    rw [ih _ (fun r' hr' => h r' (List.mem_cons_of_mem _ hr'))]
    congr 2
    funext i j
    by_cases hi : i = r <;> by_cases hj : j < n <;> by_cases hm : i ∈ rs <;>
      simp [hi, hj, hm, List.mem_range]

theorem resetMatrix_eq (arcs : List Arc) (pm : PatchMatrix)
    (hrows : pm.matrix.numRows ≤ pm.outs.length) (hcols : pm.matrix.numColumns ≤ pm.ins.length) :
    resetMatrix arcs pm =
      some (pm.withCells (fun i j =>
        if i < pm.matrix.numRows ∧ j < pm.matrix.numColumns then pm.expectedCell arcs i j
        else pm.matrix.cells i j)) := by
  have h := resetRows_withCells arcs pm pm.matrix.numColumns hcols (le_refl _)
    (List.range pm.matrix.numRows) pm.matrix.cells
    (by
      intro r hr
      have := List.mem_range.1 hr
      omega)
  simp only [List.mem_range] at h
  exact h

theorem IndexTables.extend_nil (t : IndexTables) : t.extend [] [] = t := by
  cases t; simp [IndexTables.extend]

theorem IndexTables.extend_extend (t : IndexTables) (r1 c1 r2 c2 : List (Nat × Nat × Port)) :
    (t.extend r1 c1).extend r2 c2 = t.extend (r1 ++ r2) (c1 ++ c2) := by
  simp [IndexTables.extend, Nat.add_assoc]

theorem scanPorts_eq (nodeIndex : Nat) (ports : List Port) :
    ∀ (i : Nat) (t : IndexTables),
      scanPorts nodeIndex ports i t =
        t.extend (portEntries false nodeIndex ports i) (portEntries true nodeIndex ports i) := by
  induction ports with
  | nil => intro i t; simp [scanPorts, portEntries, IndexTables.extend_nil]
  | cons p ps ih =>
    intro i t
    unfold scanPorts
    by_cases hty : p.getType = PortType.Audio
    · have hty2 : p.type = PortType.Audio := hty
      by_cases hin : p.isInput = true
      · have hin2 : p.input = true := hin
        simp only [hty, hin, ne_eq, not_true_eq_false, if_false, if_true, ih]
        simp [portEntries, List.enumFrom_cons, List.filter_cons, hty2, hin2, IndexTables.extend]
        omega
      · have hin2 : p.input = false := by simpa [Port.isInput] using hin
        have hin3 : p.isInput = false := hin2
        simp only [hty, hin3, ne_eq, not_true_eq_false, if_false, Bool.false_eq_true, ih]
        simp [portEntries, List.enumFrom_cons, List.filter_cons, hty2, hin2, IndexTables.extend]
        omega
    · have hty2 : ¬ p.type = PortType.Audio := hty
      simp only [hty, ne_eq, not_false_eq_true, if_true, ih]
      simp [portEntries, List.enumFrom_cons, List.filter_cons, hty2]

theorem scanNodes_eq (nodes : List Node) :
    ∀ (k : Nat) (t : IndexTables),
      scanNodes nodes k t = t.extend (nodeEntries false nodes k) (nodeEntries true nodes k) := by
  induction nodes with
  | nil => intro k t; simp [scanNodes, nodeEntries, IndexTables.extend_nil]
  | cons n ns ih =>
    intro k t
    unfold scanNodes
    rw [ih, scanPorts_eq, IndexTables.extend_extend]
    simp [nodeEntries, List.enumFrom_cons, Node.getPortsValueTree]

theorem nodeEntries_sound (input : Bool) (nodes : List Node) (e : Nat × Nat × Port)
    (h : e ∈ nodeEntries input nodes 0) :
    ∃ n, nodes[e.1]? = some n ∧ n.ports[e.2.1]? = some e.2.2 ∧
      e.2.2.type = PortType.Audio ∧ e.2.2.input = input := by
  simp only [nodeEntries, List.mem_flatMap, portEntries, List.mem_map, List.mem_filter] at h
  obtain ⟨⟨k, n⟩, hk, ⟨i, p⟩, ⟨hi, hf⟩, rfl⟩ := h
  simp only [Bool.and_eq_true, decide_eq_true_eq, beq_iff_eq] at hf
  refine ⟨n, ?_, ?_, ?_, ?_⟩
  · simpa [List.mk_mem_enumFrom_iff_le_and_getElem?_sub] using hk
  · simpa [List.mk_mem_enumFrom_iff_le_and_getElem?_sub] using hi
  · exact hf.1
  · exact hf.2

theorem updateContent_eq_resetMatrix (arcs : List Arc) (pm : PatchMatrix) :
    updateContent arcs pm = resetMatrix arcs pm.indexed := by
  simp [updateContent, scanNodes_eq, IndexTables.extend, IndexTables.cleared, indexed]

theorem updateContent_eq (arcs : List Arc) (pm : PatchMatrix) :
    updateContent arcs pm =
      some (pm.indexed.withCells (fun i j =>
        if i < (nodeEntries false pm.nodes 0).length ∧ j < (nodeEntries true pm.nodes 0).length
        then pm.indexed.expectedCell arcs i j
        else pm.indexed.matrix.cells i j)) := by
  rw [updateContent_eq_resetMatrix, resetMatrix_eq]
  · rfl
  · simp [indexed, MatrixState.resize]
  · simp [indexed, MatrixState.resize]

theorem indexed_getNode (pm : PatchMatrix) (input : Bool) (r : Nat)
    (hr : r < (nodeEntries input pm.nodes 0).length) :
    ∃ n p, pm.indexed.getNode r (!input) = n ∧ pm.indexed.getPort r (!input) = some p ∧
      pm.nodes[(nodeEntries input pm.nodes 0)[r].1]? = some n ∧
      n.ports[(nodeEntries input pm.nodes 0)[r].2.1]? = some p ∧
      p.type = PortType.Audio ∧ p.input = input := by
  obtain ⟨n, h1, h2, h3, h4⟩ :=
    nodeEntries_sound input pm.nodes _ (List.getElem_mem hr)
  refine ⟨n, (nodeEntries input pm.nodes 0)[r].2.2, ?_, ?_, h1, h2, h3, h4⟩
  · cases input <;> simp [getNode, indexed, hr, h1]
  · cases input <;> simp [getPort, indexed, hr]


theorem updateContent_rebuilt (arcs : List Arc) (pm : PatchMatrix) :
    updateContent arcs pm = some (pm.rebuilt arcs) :=
  updateContent_eq arcs pm

theorem rebuilt_connected (arcs : List Arc) (pm : PatchMatrix) (r c : Nat)
    (hr : r < (pm.rebuilt arcs).getNumRows) (hc : c < (pm.rebuilt arcs).getNumColumns) :
    (pm.rebuilt arcs).matrix.connected r c = (pm.rebuilt arcs).expectedCell arcs r c := by
  have hr2 : r < (nodeEntries false pm.nodes 0).length := hr
  have hc2 : c < (nodeEntries true pm.nodes 0).length := hc
  show (if _ then pm.indexed.expectedCell arcs r c else _) = pm.indexed.expectedCell arcs r c
  rw [if_pos ⟨hr2, hc2⟩]

theorem rebuilt_entry (arcs : List Arc) (pm : PatchMatrix) (input : Bool) (r : Nat)
    (hr : r < (nodeEntries input pm.nodes 0).length) :
    ∃ n p, (pm.rebuilt arcs).getNode r (!input) = n ∧
      (pm.rebuilt arcs).getPort r (!input) = some p ∧
      pm.nodes[(nodeEntries input pm.nodes 0)[r].1]? = some n ∧
      n.ports[(nodeEntries input pm.nodes 0)[r].2.1]? = some p ∧
      p.type = PortType.Audio ∧ p.input = input :=
  indexed_getNode pm input r hr

theorem rebuilt_wellFormed (arcs : List Arc) (pm : PatchMatrix)
    (hn : ∀ n ∈ pm.nodes, n.WellFormed) : (pm.rebuilt arcs).WellFormed := by
  have key : ∀ input, ∀ p ∈ (nodeEntries input pm.nodes 0).map (fun e => e.2.2),
      p.index < 2 ^ 32 := by
    intro input p hp
    obtain ⟨e, he, rfl⟩ := List.mem_map.1 hp
    obtain ⟨n, h1, h2, -, -⟩ := nodeEntries_sound input pm.nodes e he
    exact (hn n (List.getElem?_mem h1)).2 _ (List.getElem?_mem h2)
  exact ⟨fun n h => (hn n h).1, key false, key true⟩

theorem getNode_id_lt (pm : PatchMatrix) (hwf : pm.WellFormed) (i : Nat) (s : Bool) :
    (pm.getNode i s).getNodeId < 2 ^ 32 := by
  unfold getNode
  rw [List.getD_eq_getElem?_getD]
  cases h : pm.nodes[(if s = true then pm.audioOutIndexes else pm.audioInIndexes).getD i 0]? with
  | none => simp [Node.invalid, Node.getNodeId]
  | some n => exact hwf.1 n (List.getElem?_mem h)

theorem getPort_index_lt (pm : PatchMatrix) (hwf : pm.WellFormed) (i : Nat) (s : Bool) (p : Port)
    (h : pm.getPort i s = some p) : p.getIndex < 2 ^ 32 := by
  unfold getPort at h
  cases s
  · exact hwf.2.2 p (List.getElem?_mem h)
  · exact hwf.2.1 p (List.getElem?_mem h)

theorem expectedCell_iff_mem (arcs : List Arc) (pm : PatchMatrix) (hwf : pm.WellFormed)
    (ha : ∀ a ∈ arcs, a.WellFormed) (r c : Nat) (sp dp : Port)
    (hsp : pm.getPort r true = some sp) (hdp : pm.getPort c false = some dp) :
    pm.expectedCell arcs r c = true ↔
      Arc.ofRequest (pm.getNode r true).getNodeId sp.getIndex
        (pm.getNode c false).getNodeId dp.getIndex ∈ arcs := by
  unfold expectedCell
  simp only [hsp, hdp]
  rw [← connectionExists_eq_findArc]
  exact connectionExists_iff_mem arcs _ _ _ _ ha (getNode_id_lt pm hwf r true)
    (getPort_index_lt pm hwf r true sp hsp) (getNode_id_lt pm hwf c false)
    (getPort_index_lt pm hwf c false dp hdp)

theorem resetMatrix_rebuilt (arcs : List Arc) (pm : PatchMatrix) :
    resetMatrix arcs (pm.rebuilt arcs) = some (pm.rebuilt arcs) := by
  rw [resetMatrix_eq]
  · congr 1
    show (pm.rebuilt arcs).withCells _ = pm.rebuilt arcs
    unfold withCells
    have : ∀ i j,
        (if i < (pm.rebuilt arcs).matrix.numRows ∧ j < (pm.rebuilt arcs).matrix.numColumns then
          (pm.rebuilt arcs).expectedCell arcs i j
        else (pm.rebuilt arcs).matrix.cells i j) = (pm.rebuilt arcs).matrix.cells i j := by
      intro i j
      split
      · rename_i h
        exact (rebuilt_connected arcs pm i j h.1 h.2).symm
      · rfl
    simp only [this]
  · simp [rebuilt, withCells, indexed, MatrixState.resize]
  · simp [rebuilt, withCells, indexed, MatrixState.resize]

theorem portEntries_length (input : Bool) (nodeIndex : Nat) (ports : List Port) :
    ∀ i, (portEntries input nodeIndex ports i).length =
      ports.countP (fun p => decide (p.type = PortType.Audio) && (p.input == input)) := by
  induction ports with
  | nil => intro i; simp [portEntries]
  | cons p ps ih =>
    intro i
    have h := ih (i + 1)
    simp only [portEntries, List.length_map] at h
    simp only [portEntries, List.length_map, List.enumFrom_cons, List.filter_cons,
      List.countP_cons]
    split <;> simp_all

theorem nodeEntries_length (input : Bool) (nodes : List Node) :
    ∀ k, (nodeEntries input nodes k).length =
      (nodes.map (fun n =>
        n.ports.countP (fun p => decide (p.type = PortType.Audio) && (p.input == input)))).sum := by
  induction nodes with
  | nil => intro k; simp [nodeEntries]
  | cons n ns ih =>
    intro k
    have h := ih (k + 1)
    simp only [nodeEntries] at h
    simp [nodeEntries, List.enumFrom_cons, portEntries_length, h]

theorem matrixCellClicked_eq (canConnectTo : Node → Node → Bool) (arcs : List Arc)
    (pm : PatchMatrix) (row col : Nat) (ev : MouseEvent) (sp dp : Port)
    (hsp : pm.getPort row true = some sp) (hdp : pm.getPort col false = some dp)
    (hr : row < pm.getNumRows) (hc : col < pm.getNumColumns) :
    matrixCellClicked canConnectTo arcs pm row col ev =
      if ev.isPopupMenu then some (pm, [])
      else if !canConnectTo (pm.getNode row true) (pm.getNode col false) then
        some (pm.withCells (setCell pm.matrix.cells row col false), [])
      else if connectionExists arcs (pm.getNode row true).getNodeId sp.getIndex
          (pm.getNode col false).getNodeId dp.getIndex then
        some (pm.withCells (setCell pm.matrix.cells row col false),
          [Message.RemoveConnectionMessage (pm.getNode row true).getNodeId sp.getIndex
            (pm.getNode col false).getNodeId dp.getIndex])
      else
        some (pm.withCells (setCell pm.matrix.cells row col true),
          [Message.AddConnectionMessage (pm.getNode row true).getNodeId sp.getIndex
            (pm.getNode col false).getNodeId dp.getIndex]) := by
  have hr2 : row < pm.matrix.numRows := hr
  have hc2 : col < pm.matrix.numColumns := hc
  unfold matrixCellClicked
  simp only [hsp, hdp, MatrixState.connect, MatrixState.disconnect, MatrixState.set, hr2, hc2,
    and_self, if_true]
  rfl


theorem nodeEntries_complete (input : Bool) (nodes : List Node) (k i : Nat) (n : Node) (p : Port)
    (hn : nodes[k]? = some n) (hp : n.ports[i]? = some p)
    (hty : p.type = PortType.Audio) (hin : p.input = input) :
    (k, i, p) ∈ nodeEntries input nodes 0 := by
  simp only [nodeEntries, List.mem_flatMap, portEntries, List.mem_map, List.mem_filter]
  refine ⟨(k, n), ?_, (i, p), ⟨?_, ?_⟩, rfl⟩
  · simpa [List.mk_mem_enumFrom_iff_le_and_getElem?_sub] using hn
  · simpa [List.mk_mem_enumFrom_iff_le_and_getElem?_sub] using hp
  · simp [hty, hin]

theorem mem_specTable_iff (input : Bool) (nodes : List Node) (k i : Nat) :
    (k, i) ∈ (nodeEntries input nodes 0).map (fun e => (e.1, e.2.1)) ↔
      ∃ n p, nodes[k]? = some n ∧ n.ports[i]? = some p ∧
        p.type = PortType.Audio ∧ p.input = input := by
  constructor
  · intro h
    obtain ⟨e, he, heq⟩ := List.mem_map.1 h
    obtain ⟨n, h1, h2, h3, h4⟩ := nodeEntries_sound input nodes e he
    simp only [Prod.mk.injEq] at heq
    obtain ⟨rfl, rfl⟩ := heq
    exact ⟨n, e.2.2, h1, h2, h3, h4⟩
  · rintro ⟨n, p, h1, h2, h3, h4⟩
    exact List.mem_map.2 ⟨(k, i, p), nodeEntries_complete input nodes k i n p h1 h2 h3 h4, rfl⟩


/-! ## The claims -/

/-- C1: after a rebuild (`updateContent`) from a node array and an arc list
whose ids and indexes are `uint32` values, every row `r < numRows` and column
`c < numColumns` has a port, the port sits in the ports of the node the row
(the column) resolves to, and `connected (r, c)` holds if and only if the arc
list contains an arc whose four fields are the id of row `r`'s node, the index
of row `r`'s port, the id of column `c`'s node and the index of column `c`'s
port. -/
theorem rebuild_cell_iff_arc (arcs : List Arc) (pm : PatchMatrix)
    (hnodes : ∀ n ∈ pm.nodes, n.WellFormed) (harcs : ∀ a ∈ arcs, a.WellFormed) :
    ∃ pm', PatchMatrix.updateContent arcs pm = some pm' ∧
      ∀ r c, r < pm'.getNumRows → c < pm'.getNumColumns →
        ∃ srcPort dstPort,
          pm'.getPort r true = some srcPort ∧ pm'.getPort c false = some dstPort ∧
          srcPort ∈ (pm'.getNode r true).ports ∧ dstPort ∈ (pm'.getNode c false).ports ∧
          (pm'.matrix.connected r c = true ↔
            ∃ a ∈ arcs,
              a.sourceNode = ((pm'.getNode r true).getNodeId : Int) ∧
              a.sourcePort = (srcPort.getIndex : Int) ∧
              a.destNode = ((pm'.getNode c false).getNodeId : Int) ∧
              a.destPort = (dstPort.getIndex : Int)) := by
  refine ⟨pm.rebuilt arcs, updateContent_rebuilt arcs pm, ?_⟩
  intro r c hr hc
  obtain ⟨n, sp, hn, hsp, -, hnp, -, -⟩ := rebuilt_entry arcs pm false r hr
  obtain ⟨m, dp, hm, hdp, -, hmp, -, -⟩ := rebuilt_entry arcs pm true c hc
  simp only [Bool.not_false, Bool.not_true] at hn hsp hm hdp
  refine ⟨sp, dp, hsp, hdp, ?_, ?_, ?_⟩
  · rw [hn]; exact List.getElem?_mem hnp
  · rw [hm]; exact List.getElem?_mem hmp
  · rw [rebuilt_connected arcs pm r c hr hc,
      expectedCell_iff_mem arcs _ (rebuilt_wellFormed arcs pm hnodes) harcs r c sp dp hsp hdp]
    constructor
    · intro h
      exact ⟨_, h, rfl, rfl, rfl, rfl⟩
    · rintro ⟨a, ha, h1, h2, h3, h4⟩
      have : a = Arc.ofRequest ((pm.rebuilt arcs).getNode r true).getNodeId sp.getIndex
          ((pm.rebuilt arcs).getNode c false).getNodeId dp.getIndex := by
        cases a
        simp only [Arc.ofRequest, Arc.mk.injEq]
        exact ⟨h1, h2, h3, h4⟩
      exact this ▸ ha

/-- Witness for C1: the scenario nodes A and B with the single arc from output 1
of A to input 0 of B. -/
theorem rebuild_cell_iff_arc_witness :
    (∀ n ∈ scenarioStart.nodes, n.WellFormed) ∧
    (∀ a ∈ [(⟨1, 1, 2, 0⟩ : Arc)], a.WellFormed) ∧
    ∃ pm', PatchMatrix.updateContent [(⟨1, 1, 2, 0⟩ : Arc)] scenarioStart = some pm' ∧
      ∀ r c, r < pm'.getNumRows → c < pm'.getNumColumns →
        ∃ srcPort dstPort,
          pm'.getPort r true = some srcPort ∧ pm'.getPort c false = some dstPort ∧
          srcPort ∈ (pm'.getNode r true).ports ∧ dstPort ∈ (pm'.getNode c false).ports ∧
          (pm'.matrix.connected r c = true ↔
            ∃ a ∈ [(⟨1, 1, 2, 0⟩ : Arc)],
              a.sourceNode = ((pm'.getNode r true).getNodeId : Int) ∧
              a.sourcePort = (srcPort.getIndex : Int) ∧
              a.destNode = ((pm'.getNode c false).getNodeId : Int) ∧
              a.destPort = (dstPort.getIndex : Int)) :=
  ⟨by decide, by decide,
    rebuild_cell_iff_arc [(⟨1, 1, 2, 0⟩ : Arc)] scenarioStart (by decide) (by decide)⟩

/-- C2: a click without the popup modifier on an in-range cell whose nodes pass
`canConnectTo`, ids and indexes being `uint32` values: if the arc list contains
the arc (source id, source port index, destination id, destination port index)
the cell is disconnected and the only message posted is `RemoveConnectionMessage`
with those four fields; otherwise the cell is connected and the only message
posted is `AddConnectionMessage` with the same four fields. -/
theorem click_toggles_and_posts (canConnectTo : Node → Node → Bool) (arcs : List Arc)
    (pm : PatchMatrix) (row col : Nat) (ev : MouseEvent) (srcPort dstPort : Port)
    (hsp : pm.getPort row true = some srcPort) (hdp : pm.getPort col false = some dstPort)
    (hr : row < pm.getNumRows) (hc : col < pm.getNumColumns)
    (hpop : ev.isPopupMenu = false)
    (hcan : canConnectTo (pm.getNode row true) (pm.getNode col false) = true)
    (hwf : pm.WellFormed) (harcs : ∀ a ∈ arcs, a.WellFormed) :
    ∃ pm' msgs, pm.matrixCellClicked canConnectTo arcs row col ev = some (pm', msgs) ∧
      if Arc.ofRequest (pm.getNode row true).getNodeId srcPort.getIndex
          (pm.getNode col false).getNodeId dstPort.getIndex ∈ arcs then
        pm'.matrix.connected row col = false ∧
        msgs = [Message.RemoveConnectionMessage (pm.getNode row true).getNodeId srcPort.getIndex
          (pm.getNode col false).getNodeId dstPort.getIndex]
      else
        pm'.matrix.connected row col = true ∧
        msgs = [Message.AddConnectionMessage (pm.getNode row true).getNodeId srcPort.getIndex
          (pm.getNode col false).getNodeId dstPort.getIndex] := by
  have hmem := connectionExists_iff_mem arcs (pm.getNode row true).getNodeId srcPort.getIndex
    (pm.getNode col false).getNodeId dstPort.getIndex harcs (getNode_id_lt pm hwf row true)
    (getPort_index_lt pm hwf row true srcPort hsp) (getNode_id_lt pm hwf col false)
    (getPort_index_lt pm hwf col false dstPort hdp)
  rw [matrixCellClicked_eq canConnectTo arcs pm row col ev srcPort dstPort hsp hdp hr hc]
  simp only [hpop, hcan, Bool.false_eq_true, if_false, Bool.not_true]
  by_cases hex : connectionExists arcs (pm.getNode row true).getNodeId srcPort.getIndex
      (pm.getNode col false).getNodeId dstPort.getIndex = true
  · refine ⟨_, _, by rw [if_pos hex], ?_⟩
    rw [if_pos (hmem.1 hex)]
    exact ⟨by simp [MatrixState.connected, withCells, setCell], rfl⟩
  · refine ⟨_, _, by rw [if_neg hex], ?_⟩
    rw [if_neg (fun h => hex (hmem.2 h))]
    exact ⟨by simp [MatrixState.connected, withCells, setCell], rfl⟩

/-- Witness for C2: the scenario (A with two outputs, B with two inputs, no
arcs), a plain click on cell (0, 0). -/
theorem click_toggles_and_posts_witness :
    scenarioState.getPort 0 true = some ⟨PortType.Audio, false, 0⟩ ∧
    scenarioState.getPort 0 false = some ⟨PortType.Audio, true, 0⟩ ∧
    0 < scenarioState.getNumRows ∧ 0 < scenarioState.getNumColumns ∧
    noSelfConnect (scenarioState.getNode 0 true) (scenarioState.getNode 0 false) = true ∧
    ∃ pm' msgs,
      scenarioState.matrixCellClicked noSelfConnect [] 0 0 ⟨false⟩ = some (pm', msgs) ∧
      if Arc.ofRequest (scenarioState.getNode 0 true).getNodeId 0
          (scenarioState.getNode 0 false).getNodeId 0 ∈ ([] : List Arc) then
        pm'.matrix.connected 0 0 = false ∧
        msgs = [Message.RemoveConnectionMessage (scenarioState.getNode 0 true).getNodeId 0
          (scenarioState.getNode 0 false).getNodeId 0]
      else
        pm'.matrix.connected 0 0 = true ∧
        msgs = [Message.AddConnectionMessage (scenarioState.getNode 0 true).getNodeId 0
          (scenarioState.getNode 0 false).getNodeId 0] :=
  ⟨by decide, by decide, by decide, by decide, by decide,
    click_toggles_and_posts noSelfConnect [] scenarioState 0 0 ⟨false⟩
      ⟨PortType.Audio, false, 0⟩ ⟨PortType.Audio, true, 0⟩
      (by decide) (by decide) (by decide) (by decide) rfl (by decide) (by decide) (by decide)⟩


/-- C3, counterexample: a click made with the popup modifier on a connected
cell whose node pairing fails `canConnectTo` leaves that cell connected. -/
theorem popup_click_keeps_rejected_cell :
    noSelfConnect (selfLoopState.getNode 0 true) (selfLoopState.getNode 0 false) = false ∧
    selfLoopState.matrix.connected 0 0 = true ∧
    (selfLoopState.matrixCellClicked noSelfConnect selfLoopGraph.arcs 0 0 ⟨true⟩).map
      (fun s => (s.1.matrix.connected 0 0, s.2)) = some (true, []) := by
  decide

/-- C3, amended: every click without the popup modifier on an in-range cell
whose source node fails `canConnectTo` for the destination node leaves the cell
disconnected, whatever its prior value and whatever the arc list, and posts no
message. -/
theorem click_rejected_disconnects (canConnectTo : Node → Node → Bool) (arcs : List Arc)
    (pm : PatchMatrix) (row col : Nat) (ev : MouseEvent) (srcPort dstPort : Port)
    (hsp : pm.getPort row true = some srcPort) (hdp : pm.getPort col false = some dstPort)
    (hr : row < pm.getNumRows) (hc : col < pm.getNumColumns)
    (hpop : ev.isPopupMenu = false)
    (hcan : canConnectTo (pm.getNode row true) (pm.getNode col false) = false) :
    ∃ pm', pm.matrixCellClicked canConnectTo arcs row col ev = some (pm', []) ∧
      pm'.matrix.connected row col = false := by
  rw [matrixCellClicked_eq canConnectTo arcs pm row col ev srcPort dstPort hsp hdp hr hc]
  simp only [hpop, hcan, Bool.false_eq_true, if_false, Bool.not_false, if_true]
  exact ⟨_, rfl, by simp [MatrixState.connected, withCells, setCell]⟩

/-- Witness for C3: a plain click on the connected self-pairing cell of
`selfLoopState`. -/
theorem click_rejected_disconnects_witness :
    selfLoopState.matrix.connected 0 0 = true ∧
    ∃ pm', selfLoopState.matrixCellClicked noSelfConnect selfLoopGraph.arcs 0 0 ⟨false⟩ =
        some (pm', []) ∧
      pm'.matrix.connected 0 0 = false :=
  ⟨by decide,
    click_rejected_disconnects noSelfConnect selfLoopGraph.arcs selfLoopState 0 0 ⟨false⟩
      ⟨PortType.Audio, false, 1⟩ ⟨PortType.Audio, true, 2⟩
      (by decide) (by decide) (by decide) (by decide) rfl (by decide)⟩

/-- C4: for every node array, `updateContent` returns, leaves the node array as
it is, and fills the row tables with exactly the (node index, port position)
pairs of the audio output ports and the column tables with exactly those of the
audio input ports, by node in collection order and by port in declaration
order; a pair is listed exactly when the port at that position of that node is
an audio port of the direction. -/
theorem updateContent_tables (arcs : List Arc) (pm : PatchMatrix) :
    ∃ pm', PatchMatrix.updateContent arcs pm = some pm' ∧
      pm'.nodes = pm.nodes ∧
      pm'.audioOutIndexes = (specRowTable pm.nodes).map Prod.fst ∧
      pm'.audioOutChannels = (specRowTable pm.nodes).map Prod.snd ∧
      pm'.audioInIndexes = (specColumnTable pm.nodes).map Prod.fst ∧
      pm'.audioInChannels = (specColumnTable pm.nodes).map Prod.snd ∧
      (∀ k i, (k, i) ∈ specRowTable pm.nodes ↔
        ∃ n p, pm.nodes[k]? = some n ∧ n.ports[i]? = some p ∧
          p.type = PortType.Audio ∧ p.input = false) ∧
      (∀ k i, (k, i) ∈ specColumnTable pm.nodes ↔
        ∃ n p, pm.nodes[k]? = some n ∧ n.ports[i]? = some p ∧
          p.type = PortType.Audio ∧ p.input = true) := by
  refine ⟨pm.rebuilt arcs, updateContent_rebuilt arcs pm, rfl, ?_, ?_, ?_, ?_,
    mem_specTable_iff false pm.nodes, mem_specTable_iff true pm.nodes⟩ <;>
  simp [rebuilt, withCells, indexed, specRowTable, specColumnTable]

/-- C5: after every rebuild the number of rows is the number of audio output
ports over all nodes and the number of columns is the number of audio input
ports over all nodes; when no node has an audio input port the number of columns
is 0 and the matrix is empty. -/
theorem rebuild_dimensions (arcs : List Arc) (pm : PatchMatrix) :
    ∃ pm', PatchMatrix.updateContent arcs pm = some pm' ∧
      pm'.getNumRows = countAudioOutputs pm.nodes ∧
      pm'.getNumColumns = countAudioInputs pm.nodes ∧
      ((∀ n ∈ pm.nodes, ∀ p ∈ n.ports, ¬ (p.type = PortType.Audio ∧ p.input = true)) →
        pm'.getNumColumns = 0 ∧ pm'.matrix.isEmpty = true) := by
  have hrows : (pm.rebuilt arcs).getNumRows = countAudioOutputs pm.nodes := by
    show (nodeEntries false pm.nodes 0).length = _
    rw [nodeEntries_length]
    simp [countAudioOutputs]
  have hcols : (pm.rebuilt arcs).getNumColumns = countAudioInputs pm.nodes := by
    show (nodeEntries true pm.nodes 0).length = _
    rw [nodeEntries_length]
    simp [countAudioInputs]
  refine ⟨pm.rebuilt arcs, updateContent_rebuilt arcs pm, hrows, hcols, ?_⟩
  intro h
  have h0 : (pm.rebuilt arcs).getNumColumns = 0 := by
    rw [hcols]
    unfold countAudioInputs
    apply List.sum_eq_zero
    intro x hx
    obtain ⟨n, hn, rfl⟩ := List.mem_map.1 hx
    rw [List.countP_eq_zero]
    intro p hp
    have := h n hn p hp
    simpa using this
  refine ⟨h0, ?_⟩
  have h1 : (pm.rebuilt arcs).matrix.numColumns = 0 := h0
  simp [MatrixState.isEmpty, h1]


/-- C6: for every state and every redirect notification the component receives,
the listener performs the full rebuild. The component listens on `nodeModels`
only (`nodeModels.addListener (this)` in the constructor) and a redirect is
reported to the listeners of the reassigned tree, so the tree of the
notification is `nodeModels`; the guard at the head of the listener then lets
every such notification through. The listener returns the state that
`buildNodeArray` returns, which is also what the child-added and child-removed
listeners return for a node-typed child of the collection: the node array is
the current node collection, the index tables and the dimensions are the ones
derived from it, and every cell in range is the one `resetMatrix` derives from
the current arc list. No message is posted. -/
theorem redirected_rebuilds (g : Graph) (pm : PatchMatrix) (treeWhichHasBeenChanged : TreeRef)
    (index : Int) (hdelivered : treeWhichHasBeenChanged = pm.nodeModels) :
    ∃ pm', pm.valueTreeRedirected g treeWhichHasBeenChanged = some (pm', []) ∧
      pm.buildNodeArray g = some pm' ∧
      pm.valueTreeChildAdded g pm.nodeModels Tags.node = some (pm', []) ∧
      pm.valueTreeChildRemoved g pm.nodeModels Tags.node index = some (pm', []) ∧
      pm'.nodes = g.nodes ∧
      pm'.audioOutIndexes = (specRowTable g.nodes).map Prod.fst ∧
      pm'.audioOutChannels = (specRowTable g.nodes).map Prod.snd ∧
      pm'.audioInIndexes = (specColumnTable g.nodes).map Prod.fst ∧
      pm'.audioInChannels = (specColumnTable g.nodes).map Prod.snd ∧
      pm'.getNumRows = countAudioOutputs g.nodes ∧
      pm'.getNumColumns = countAudioInputs g.nodes ∧
      ∀ r c, r < pm'.getNumRows → c < pm'.getNumColumns →
        pm'.matrix.connected r c = pm'.expectedCell g.arcs r c := by
  subst hdelivered
  have hb : pm.buildNodeArray g = some (PatchMatrix.rebuilt g.arcs { pm with nodes := g.nodes }) :=
    updateContent_rebuilt g.arcs _
  have hrows : (PatchMatrix.rebuilt g.arcs { pm with nodes := g.nodes }).getNumRows =
      countAudioOutputs g.nodes := by
    show (nodeEntries false g.nodes 0).length = _
    rw [nodeEntries_length]
    simp [countAudioOutputs]
  have hcols : (PatchMatrix.rebuilt g.arcs { pm with nodes := g.nodes }).getNumColumns =
      countAudioInputs g.nodes := by
    show (nodeEntries true g.nodes 0).length = _
    rw [nodeEntries_length]
    simp [countAudioInputs]
  refine ⟨_, ?_, hb, ?_, ?_, rfl, ?_, ?_, ?_, ?_, hrows, hcols, ?_⟩
  · simp only [valueTreeRedirected, ne_eq, not_true_eq_false, if_false, hb]
    rw [resetMatrix_rebuilt]
    rfl
  · simp [valueTreeChildAdded, hb]
  · simp [valueTreeChildRemoved, hb]
  · simp [rebuilt, withCells, indexed, specRowTable]
  · simp [rebuilt, withCells, indexed, specRowTable]
  · simp [rebuilt, withCells, indexed, specColumnTable]
  · simp [rebuilt, withCells, indexed, specColumnTable]
  · intro r c hr hc
    exact rebuilt_connected g.arcs _ r c hr hc

/-- Witness for C6: a fresh component observing tree 0 is redirected to the
scenario graph. -/
theorem redirected_rebuilds_witness :
    (0 : TreeRef) = (PatchMatrix.init 0).nodeModels ∧
    ∃ pm', (PatchMatrix.init 0).valueTreeRedirected scenarioGraph 0 = some (pm', []) ∧
      (PatchMatrix.init 0).buildNodeArray scenarioGraph = some pm' ∧
      (PatchMatrix.init 0).valueTreeChildAdded scenarioGraph (PatchMatrix.init 0).nodeModels
        Tags.node = some (pm', []) ∧
      (PatchMatrix.init 0).valueTreeChildRemoved scenarioGraph (PatchMatrix.init 0).nodeModels
        Tags.node 1 = some (pm', []) ∧
      pm'.nodes = scenarioGraph.nodes ∧
      pm'.audioOutIndexes = (specRowTable scenarioGraph.nodes).map Prod.fst ∧
      pm'.audioOutChannels = (specRowTable scenarioGraph.nodes).map Prod.snd ∧
      pm'.audioInIndexes = (specColumnTable scenarioGraph.nodes).map Prod.fst ∧
      pm'.audioInChannels = (specColumnTable scenarioGraph.nodes).map Prod.snd ∧
      pm'.getNumRows = countAudioOutputs scenarioGraph.nodes ∧
      pm'.getNumColumns = countAudioInputs scenarioGraph.nodes ∧
      ∀ r c, r < pm'.getNumRows → c < pm'.getNumColumns →
        pm'.matrix.connected r c = pm'.expectedCell scenarioGraph.arcs r c :=
  ⟨rfl, redirected_rebuilds scenarioGraph (PatchMatrix.init 0) 0 1 rfl⟩


/-- C7, counterexample: a rebuild from an arc list that holds an arc from the
audio output of a node to the audio input of the same node shows that
self-pairing cell connected. -/
theorem rebuild_shows_self_arc :
    ((PatchMatrix.init 0).buildNodeArray selfLoopGraph).map
      (fun pm => (decide (pm.getNode 0 true = selfLoopNode),
        decide (pm.getNode 0 false = selfLoopNode), pm.matrix.connected 0 0)) =
      some (true, true, true) := by
  decide

/-- C7, amended: when `canConnectTo` rejects every node paired with itself and
ids and indexes are `uint32` values, then for every row `r` and column `c` that
resolve to the same node right after a rebuild: `connected (r, c)` is true
exactly when the arc list contains the arc from that node's output port to its
own input port, and a click without the popup modifier on `(r, c)` leaves the
cell disconnected and posts no message. -/
theorem self_pairing_cell (canConnectTo : Node → Node → Bool) (arcs : List Arc)
    (pm : PatchMatrix) (hself : ∀ n, canConnectTo n n = false)
    (hnodes : ∀ n ∈ pm.nodes, n.WellFormed) (harcs : ∀ a ∈ arcs, a.WellFormed) :
    ∃ pm', PatchMatrix.updateContent arcs pm = some pm' ∧
      ∀ r c, r < pm'.getNumRows → c < pm'.getNumColumns →
        pm'.getNode r true = pm'.getNode c false →
        ∃ srcPort dstPort,
          pm'.getPort r true = some srcPort ∧ pm'.getPort c false = some dstPort ∧
          (pm'.matrix.connected r c = true ↔
            Arc.ofRequest (pm'.getNode r true).getNodeId srcPort.getIndex
              (pm'.getNode r true).getNodeId dstPort.getIndex ∈ arcs) ∧
          ∀ ev : MouseEvent, ev.isPopupMenu = false →
            ∃ pmc, pm'.matrixCellClicked canConnectTo arcs r c ev = some (pmc, []) ∧
              pmc.matrix.connected r c = false := by
  refine ⟨pm.rebuilt arcs, updateContent_rebuilt arcs pm, ?_⟩
  intro r c hr hc hsame
  obtain ⟨n, sp, -, hsp, -, -, -, -⟩ := rebuilt_entry arcs pm false r hr
  obtain ⟨m, dp, -, hdp, -, -, -, -⟩ := rebuilt_entry arcs pm true c hc
  simp only [Bool.not_false, Bool.not_true] at hsp hdp
  refine ⟨sp, dp, hsp, hdp, ?_, ?_⟩
  · rw [rebuilt_connected arcs pm r c hr hc,
      expectedCell_iff_mem arcs _ (rebuilt_wellFormed arcs pm hnodes) harcs r c sp dp hsp hdp,
      hsame]
  · intro ev hpop
    rw [matrixCellClicked_eq canConnectTo arcs _ r c ev sp dp hsp hdp hr hc]
    have hcan : canConnectTo ((pm.rebuilt arcs).getNode r true)
        ((pm.rebuilt arcs).getNode c false) = false := by
      rw [hsame]; exact hself _
    simp only [hpop, hcan, Bool.false_eq_true, if_false, Bool.not_false, if_true]
    exact ⟨_, rfl, by simp [MatrixState.connected, withCells, setCell]⟩

/-- Witness for C7: the node array of `selfLoopGraph` with its self-arc. -/
theorem self_pairing_cell_witness :
    (∀ n, noSelfConnect n n = false) ∧
    ∃ pm', PatchMatrix.updateContent selfLoopGraph.arcs
        { PatchMatrix.init 0 with nodes := selfLoopGraph.nodes } = some pm' ∧
      ∀ r c, r < pm'.getNumRows → c < pm'.getNumColumns →
        pm'.getNode r true = pm'.getNode c false →
        ∃ srcPort dstPort,
          pm'.getPort r true = some srcPort ∧ pm'.getPort c false = some dstPort ∧
          (pm'.matrix.connected r c = true ↔
            Arc.ofRequest (pm'.getNode r true).getNodeId srcPort.getIndex
              (pm'.getNode r true).getNodeId dstPort.getIndex ∈ selfLoopGraph.arcs) ∧
          ∀ ev : MouseEvent, ev.isPopupMenu = false →
            ∃ pmc, pm'.matrixCellClicked noSelfConnect selfLoopGraph.arcs r c ev =
                some (pmc, []) ∧
              pmc.matrix.connected r c = false :=
  ⟨fun n => by simp [noSelfConnect],
    self_pairing_cell noSelfConnect selfLoopGraph.arcs
      { PatchMatrix.init 0 with nodes := selfLoopGraph.nodes }
      (fun n => by simp [noSelfConnect]) (by decide) (by decide)⟩

/-- C8: a child-added or child-removed notification whose child is not
node-typed, or whose parent is not the observed node collection, triggers no
rebuild: the listener returns the state it was given (node array, index tables,
dimensions and cells as they were) and posts nothing. -/
theorem child_notification_ignored (g : Graph) (pm : PatchMatrix) (parentTree : TreeRef)
    (childType : Identifier) (index : Int)
    (h : ¬ (pm.nodeModels = parentTree ∧ childType = Tags.node)) :
    pm.valueTreeChildAdded g parentTree childType = some (pm, []) ∧
    pm.valueTreeChildRemoved g parentTree childType index = some (pm, []) := by
  simp only [valueTreeChildAdded, valueTreeChildRemoved, if_neg h, and_self]

/-- Witness for C8: an arc-typed child reported for the observed tree while the
model holds one more node than the component. -/
theorem child_notification_ignored_witness :
    ¬ (scenarioState.nodeModels = 0 ∧ Tags.arc = Tags.node) ∧
    scenarioState.valueTreeChildAdded selfLoopGraph 0 Tags.arc = some (scenarioState, []) ∧
    scenarioState.valueTreeChildRemoved selfLoopGraph 0 Tags.arc 3 = some (scenarioState, []) :=
  ⟨by decide, child_notification_ignored selfLoopGraph scenarioState 0 Tags.arc 3 (by decide)⟩

/-- C9: the property-changed, child-order-changed and parent-changed listeners
are no-ops: each returns the state it was given (node array, index tables,
dimensions and cells as they were) and posts nothing. -/
theorem unrelated_notifications_noop (pm : PatchMatrix) (tree : TreeRef) (property : Identifier)
    (oldIndex newIndex : Int) :
    pm.valueTreePropertyChanged tree property = some (pm, []) ∧
    pm.valueTreeChildOrderChanged tree oldIndex newIndex = some (pm, []) ∧
    pm.valueTreeParentChanged tree = some (pm, []) :=
  ⟨rfl, rfl, rfl⟩


/-- C10: toggle round-trip. From the state a rebuild returns, for an in-range
cell `(r, c)` whose nodes pass `canConnectTo` and whose arc is not in the arc
list (ids and indexes being `uint32` values): a click without the popup modifier
posts one request, the model applies it, a second such click posts one request,
the model applies it, and then the arc list is the original one and every
matrix cell has its original value. -/
theorem toggle_round_trip (canConnectTo : Node → Node → Bool) (arcs : List Arc)
    (pm pm0 : PatchMatrix) (r c : Nat) (ev1 ev2 : MouseEvent) (srcPort dstPort : Port)
    (hsync : PatchMatrix.updateContent arcs pm = some pm0)
    (hnodes : ∀ n ∈ pm.nodes, n.WellFormed) (harcs : ∀ a ∈ arcs, a.WellFormed)
    (hr : r < pm0.getNumRows) (hc : c < pm0.getNumColumns)
    (hsp : pm0.getPort r true = some srcPort) (hdp : pm0.getPort c false = some dstPort)
    (hcan : canConnectTo (pm0.getNode r true) (pm0.getNode c false) = true)
    (hno : Arc.ofRequest (pm0.getNode r true).getNodeId srcPort.getIndex
      (pm0.getNode c false).getNodeId dstPort.getIndex ∉ arcs)
    (hpop1 : ev1.isPopupMenu = false) (hpop2 : ev2.isPopupMenu = false) :
    ∃ pm1 m1 pm2 m2,
      pm0.matrixCellClicked canConnectTo arcs r c ev1 = some (pm1, [m1]) ∧
      pm1.matrixCellClicked canConnectTo (applyRequest arcs m1) r c ev2 = some (pm2, [m2]) ∧
      applyRequest (applyRequest arcs m1) m2 = arcs ∧
      ∀ i j, pm2.matrix.connected i j = pm0.matrix.connected i j := by
  obtain rfl : pm.rebuilt arcs = pm0 := by
    rw [updateContent_rebuilt] at hsync
    exact Option.some.inj hsync
  have hwf := rebuilt_wellFormed arcs pm hnodes
  have hmem := connectionExists_iff_mem arcs ((pm.rebuilt arcs).getNode r true).getNodeId
    srcPort.getIndex ((pm.rebuilt arcs).getNode c false).getNodeId dstPort.getIndex harcs
    (getNode_id_lt _ hwf r true) (getPort_index_lt _ hwf r true srcPort hsp)
    (getNode_id_lt _ hwf c false) (getPort_index_lt _ hwf c false dstPort hdp)
  have hex : connectionExists arcs ((pm.rebuilt arcs).getNode r true).getNodeId
      srcPort.getIndex ((pm.rebuilt arcs).getNode c false).getNodeId dstPort.getIndex = false := by
    rw [Bool.eq_false_iff]
    exact fun h => hno (hmem.1 h)
  have hcell : (pm.rebuilt arcs).matrix.cells r c = false := by
    have h1 := rebuilt_connected arcs pm r c hr hc
    have h2 := expectedCell_iff_mem arcs _ hwf harcs r c srcPort dstPort hsp hdp
    rw [Bool.eq_false_iff]
    intro h
    exact hno (h2.1 (h1 ▸ h))
  have hclick1 := matrixCellClicked_eq canConnectTo arcs (pm.rebuilt arcs) r c ev1
    srcPort dstPort hsp hdp hr hc
  simp only [hpop1, hcan, hex, Bool.false_eq_true, if_false, Bool.not_true] at hclick1
  have happly1 : applyRequest arcs (Message.AddConnectionMessage
      ((pm.rebuilt arcs).getNode r true).getNodeId srcPort.getIndex
      ((pm.rebuilt arcs).getNode c false).getNodeId dstPort.getIndex) =
      arcs ++ [Arc.ofRequest ((pm.rebuilt arcs).getNode r true).getNodeId srcPort.getIndex
        ((pm.rebuilt arcs).getNode c false).getNodeId dstPort.getIndex] := by
    simp only [applyRequest, if_neg hno]
  have hex2 : connectionExists
      (arcs ++ [Arc.ofRequest ((pm.rebuilt arcs).getNode r true).getNodeId srcPort.getIndex
        ((pm.rebuilt arcs).getNode c false).getNodeId dstPort.getIndex])
      ((pm.rebuilt arcs).getNode r true).getNodeId srcPort.getIndex
      ((pm.rebuilt arcs).getNode c false).getNodeId dstPort.getIndex = true := by
    rw [connectionExists_iff]
    exact ⟨_, by simp, arcMatches_ofRequest _ _ _ _⟩
  have hclick2 := matrixCellClicked_eq canConnectTo
    (arcs ++ [Arc.ofRequest ((pm.rebuilt arcs).getNode r true).getNodeId srcPort.getIndex
        ((pm.rebuilt arcs).getNode c false).getNodeId dstPort.getIndex])
    ((pm.rebuilt arcs).withCells (setCell (pm.rebuilt arcs).matrix.cells r c true)) r c ev2
    srcPort dstPort hsp hdp hr hc
  have hcan2 : canConnectTo
      (((pm.rebuilt arcs).withCells (setCell (pm.rebuilt arcs).matrix.cells r c true)).getNode
        r true)
      (((pm.rebuilt arcs).withCells (setCell (pm.rebuilt arcs).matrix.cells r c true)).getNode
        c false) = true := hcan
  have hex3 : connectionExists
      (arcs ++ [Arc.ofRequest ((pm.rebuilt arcs).getNode r true).getNodeId srcPort.getIndex
        ((pm.rebuilt arcs).getNode c false).getNodeId dstPort.getIndex])
      (((pm.rebuilt arcs).withCells (setCell (pm.rebuilt arcs).matrix.cells r c true)).getNode
        r true).getNodeId srcPort.getIndex
      (((pm.rebuilt arcs).withCells (setCell (pm.rebuilt arcs).matrix.cells r c true)).getNode
        c false).getNodeId dstPort.getIndex = true := hex2
  simp only [hpop2, hcan2, hex3, Bool.false_eq_true, if_false, Bool.not_true, if_true]
    at hclick2
  refine ⟨(pm.rebuilt arcs).withCells (setCell (pm.rebuilt arcs).matrix.cells r c true),
    Message.AddConnectionMessage ((pm.rebuilt arcs).getNode r true).getNodeId srcPort.getIndex
      ((pm.rebuilt arcs).getNode c false).getNodeId dstPort.getIndex,
    ((pm.rebuilt arcs).withCells (setCell (pm.rebuilt arcs).matrix.cells r c true)).withCells
      (setCell (setCell (pm.rebuilt arcs).matrix.cells r c true) r c false),
    Message.RemoveConnectionMessage ((pm.rebuilt arcs).getNode r true).getNodeId srcPort.getIndex
      ((pm.rebuilt arcs).getNode c false).getNodeId dstPort.getIndex,
    hclick1, ?_, ?_, ?_⟩
  · rw [happly1]
    exact hclick2
  · rw [happly1]
    show List.filter _ _ = arcs
    rw [List.filter_append]
    have h1 : List.filter (fun a => decide (a ≠
        Arc.ofRequest ((pm.rebuilt arcs).getNode r true).getNodeId srcPort.getIndex
          ((pm.rebuilt arcs).getNode c false).getNodeId dstPort.getIndex)) arcs = arcs := by
      rw [List.filter_eq_self]
      intro a ha
      simp only [ne_eq, decide_eq_true_eq]
      intro h
      exact hno (h ▸ ha)
    rw [h1]
    simp
  · intro i j
    show setCell (setCell (pm.rebuilt arcs).matrix.cells r c true) r c false i j =
      (pm.rebuilt arcs).matrix.cells i j
    unfold setCell
    by_cases h : i = r ∧ j = c
    · rw [if_pos h, h.1, h.2, hcell]
    · rw [if_neg h, if_neg h]

/-- Witness for C10: the scenario (A with two outputs, B with two inputs, no
arcs), two plain clicks on cell (0, 0). -/
theorem toggle_round_trip_witness :
    PatchMatrix.updateContent [] scenarioStart = some scenarioState ∧
    noSelfConnect (scenarioState.getNode 0 true) (scenarioState.getNode 0 false) = true ∧
    ∃ pm1 m1 pm2 m2,
      scenarioState.matrixCellClicked noSelfConnect [] 0 0 ⟨false⟩ = some (pm1, [m1]) ∧
      pm1.matrixCellClicked noSelfConnect (applyRequest [] m1) 0 0 ⟨false⟩ = some (pm2, [m2]) ∧
      applyRequest (applyRequest [] m1) m2 = [] ∧
      ∀ i j, pm2.matrix.connected i j = scenarioState.matrix.connected i j :=
  ⟨rfl, by decide,
    toggle_round_trip noSelfConnect [] scenarioStart scenarioState 0 0 ⟨false⟩ ⟨false⟩
      ⟨PortType.Audio, false, 0⟩ ⟨PortType.Audio, true, 0⟩
      rfl (by decide) (by decide) (by decide) (by decide) (by decide) (by decide) (by decide)
      (by decide) rfl rfl⟩

/-! ## Lemmas: idempotence, ranges and locality -/

theorem rebuilt_rebuilt (arcs : List Arc) (pm : PatchMatrix) :
    (pm.rebuilt arcs).rebuilt arcs = pm.rebuilt arcs := by
  have hcells : ∀ i j,
      (if i < (nodeEntries false pm.nodes 0).length ∧ j < (nodeEntries true pm.nodes 0).length
        then (pm.rebuilt arcs).indexed.expectedCell arcs i j
        else (pm.rebuilt arcs).indexed.matrix.cells i j) =
      (if i < (nodeEntries false pm.nodes 0).length ∧ j < (nodeEntries true pm.nodes 0).length
        then pm.indexed.expectedCell arcs i j
        else pm.indexed.matrix.cells i j) := by
    intro i j
    by_cases h : i < (nodeEntries false pm.nodes 0).length ∧
        j < (nodeEntries true pm.nodes 0).length
    · rw [if_pos h, if_pos h]
      rfl
    · rw [if_neg h, if_neg h]
      have h1 : (pm.rebuilt arcs).indexed.matrix.cells i j = false := by
        show (decide _ && _) = false
        have : (pm.rebuilt arcs).nodes = pm.nodes := rfl
        simp only [this]
        rw [Bool.and_eq_false_iff]
        left
        rw [decide_eq_false_iff_not]
        exact fun hh => h ⟨hh.1, hh.2.1⟩
      have h2 : pm.indexed.matrix.cells i j = false := by
        show (decide _ && _) = false
        rw [Bool.and_eq_false_iff]
        left
        rw [decide_eq_false_iff_not]
        exact fun hh => h ⟨hh.1, hh.2.1⟩
      rw [h1, h2]
  show (pm.rebuilt arcs).indexed.withCells _ = pm.indexed.withCells _
  have hfun := funext (fun i => funext (hcells i))
  have hnodes : (pm.rebuilt arcs).nodes = pm.nodes := rfl
  simp only [hnodes] at hfun ⊢
  rw [hfun]
  rfl

theorem rebuilt_lookup (arcs : List Arc) (pm : PatchMatrix) (input : Bool) (r : Nat)
    (hr : r < (nodeEntries input pm.nodes 0).length) :
    ∃ k n p,
      (if input then (pm.rebuilt arcs).audioInIndexes
        else (pm.rebuilt arcs).audioOutIndexes)[r]? = some k ∧
      pm.nodes[k]? = some n ∧ (pm.rebuilt arcs).getNode r (!input) = n ∧
      (pm.rebuilt arcs).getPort r (!input) = some p := by
  obtain ⟨n, p, h1, h2, h3, -, -, -⟩ := rebuilt_entry arcs pm input r hr
  refine ⟨(nodeEntries input pm.nodes 0)[r].1, n, p, ?_, h3, h1, h2⟩
  cases input <;> simp [rebuilt, withCells, indexed, hr]

theorem rebuilt_index_lt (pm : PatchMatrix) (input : Bool) :
    ∀ k ∈ (nodeEntries input pm.nodes 0).map (fun e => e.1), k < pm.nodes.length := by
  intro k hk
  obtain ⟨e, he, rfl⟩ := List.mem_map.1 hk
  obtain ⟨n, h1, -, -, -⟩ := nodeEntries_sound input pm.nodes e he
  by_contra hlt
  rw [List.getElem?_eq_none (by omega)] at h1
  exact Option.noConfusion h1

/-- C11: the rebuild is idempotent. For every node collection, arc list and
prior state, the rebuild returns a state, and running the rebuild on that state
again with the same model returns the very same state (index tables, dimensions
and every cell); so does `updateContent` alone, and so does the extra
`resetMatrix` of the redirect path. -/
theorem rebuild_idempotent (g : Graph) (pm : PatchMatrix) :
    ∃ pm1, pm.buildNodeArray g = some pm1 ∧
      pm1.buildNodeArray g = some pm1 ∧
      PatchMatrix.updateContent g.arcs pm1 = some pm1 ∧
      PatchMatrix.resetMatrix g.arcs pm1 = some pm1 := by
  refine ⟨PatchMatrix.rebuilt g.arcs { pm with nodes := g.nodes },
    updateContent_rebuilt g.arcs _, ?_, ?_, resetMatrix_rebuilt g.arcs _⟩
  · show PatchMatrix.updateContent g.arcs
      (PatchMatrix.rebuilt g.arcs { pm with nodes := g.nodes }) = _
    rw [updateContent_rebuilt, rebuilt_rebuilt]
  · rw [updateContent_rebuilt, rebuilt_rebuilt]

/-- C12: resize safety. After every rebuild, whatever the prior state (say
the tables of a larger node collection), the three row tables have
exactly `numRows` entries, the three column tables have exactly `numColumns`
entries, every stored node index is below the number of nodes of the current
collection, and for every `r < numRows` and `c < numColumns` the node and port
lookups of `resetMatrix` are in range. -/
theorem rebuild_tables_in_range (g : Graph) (pm : PatchMatrix) :
    ∃ pm1, pm.buildNodeArray g = some pm1 ∧
      pm1.nodes = g.nodes ∧
      pm1.audioOutIndexes.length = pm1.getNumRows ∧
      pm1.audioOutChannels.length = pm1.getNumRows ∧
      pm1.outs.length = pm1.getNumRows ∧
      pm1.audioInIndexes.length = pm1.getNumColumns ∧
      pm1.audioInChannels.length = pm1.getNumColumns ∧
      pm1.ins.length = pm1.getNumColumns ∧
      (∀ k ∈ pm1.audioOutIndexes, k < g.nodes.length) ∧
      (∀ k ∈ pm1.audioInIndexes, k < g.nodes.length) ∧
      ∀ r c, r < pm1.getNumRows → c < pm1.getNumColumns →
        (∃ k n p, pm1.audioOutIndexes[r]? = some k ∧ g.nodes[k]? = some n ∧
          pm1.getNode r true = n ∧ pm1.getPort r true = some p) ∧
        (∃ k n p, pm1.audioInIndexes[c]? = some k ∧ g.nodes[k]? = some n ∧
          pm1.getNode c false = n ∧ pm1.getPort c false = some p) := by
  refine ⟨PatchMatrix.rebuilt g.arcs { pm with nodes := g.nodes },
    updateContent_rebuilt g.arcs _, rfl, ?_, ?_, ?_, ?_, ?_, ?_,
    rebuilt_index_lt { pm with nodes := g.nodes } false,
    rebuilt_index_lt { pm with nodes := g.nodes } true, ?_⟩
  · simp [rebuilt, withCells, indexed, getNumRows, MatrixState.getNumRows, MatrixState.resize]
  · simp [rebuilt, withCells, indexed, getNumRows, MatrixState.getNumRows, MatrixState.resize]
  · simp [rebuilt, withCells, indexed, getNumRows, MatrixState.getNumRows, MatrixState.resize]
  · simp [rebuilt, withCells, indexed, getNumColumns, MatrixState.getNumColumns,
      MatrixState.resize]
  · simp [rebuilt, withCells, indexed, getNumColumns, MatrixState.getNumColumns,
      MatrixState.resize]
  · simp [rebuilt, withCells, indexed, getNumColumns, MatrixState.getNumColumns,
      MatrixState.resize]
  · intro r c hr hc
    exact ⟨rebuilt_lookup g.arcs { pm with nodes := g.nodes } false r hr,
      rebuilt_lookup g.arcs { pm with nodes := g.nodes } true c hc⟩

/-- C13, the code at the failing input: in the scenario state (rows are the
outputs of node A, columns the inputs of node B) a popup click on column header
0 followed by the choice Remove posts `RemoveNodeMessage` for node A, although
column 0 belongs to node B; the row header path posts it for node A, the owner
of row 0. Neither path changes the state. -/
theorem destinations_menu_takes_row_node :
    scenarioState.getNode 0 false = scenarioNodeB ∧
    scenarioState.getNode 0 true = scenarioNodeA ∧
    (Destinations.listBoxItemClicked scenarioState 0 ⟨true⟩ NodePopupMenu.RemoveNode).2 =
      [Message.RemoveNodeMessage scenarioNodeA] ∧
    (Sources.listBoxItemClicked scenarioState 0 ⟨true⟩ NodePopupMenu.RemoveNode).2 =
      [Message.RemoveNodeMessage scenarioNodeA] := by
  decide

/-- C14: the arc lookup of the click handler (`connectionExists`) and the one
of the rebuild (`findArc`) agree on every arc list and every four values, and
so, in the state a rebuild returns and with the same arc list, a click without
the popup modifier on an in-range cell whose nodes pass `canConnectTo` leaves
`connected (r, c)` equal to the negation of its value before the click. -/
theorem click_after_rebuild_toggles (canConnectTo : Node → Node → Bool) (arcs : List Arc)
    (pm pm0 : PatchMatrix) (r c : Nat) (ev : MouseEvent)
    (hsync : PatchMatrix.updateContent arcs pm = some pm0)
    (hr : r < pm0.getNumRows) (hc : c < pm0.getNumColumns)
    (hpop : ev.isPopupMenu = false)
    (hcan : canConnectTo (pm0.getNode r true) (pm0.getNode c false) = true) :
    (∀ sn sp dn dp, connectionExists arcs sn sp dn dp = (findArc arcs sn sp dn dp).isSome) ∧
    ∃ pm1 msgs, pm0.matrixCellClicked canConnectTo arcs r c ev = some (pm1, msgs) ∧
      pm1.matrix.connected r c = !pm0.matrix.connected r c := by
  refine ⟨connectionExists_eq_findArc arcs, ?_⟩
  obtain rfl : pm.rebuilt arcs = pm0 := by
    rw [updateContent_rebuilt] at hsync
    exact Option.some.inj hsync
  obtain ⟨n, sp, -, hsp, -, -, -, -⟩ := rebuilt_entry arcs pm false r hr
  obtain ⟨m, dp, -, hdp, -, -, -, -⟩ := rebuilt_entry arcs pm true c hc
  simp only [Bool.not_false, Bool.not_true] at hsp hdp
  have hcell : (pm.rebuilt arcs).matrix.connected r c =
      connectionExists arcs ((pm.rebuilt arcs).getNode r true).getNodeId sp.getIndex
        ((pm.rebuilt arcs).getNode c false).getNodeId dp.getIndex := by
    rw [rebuilt_connected arcs pm r c hr hc, connectionExists_eq_findArc]
    unfold expectedCell
    simp only [hsp, hdp]
  rw [matrixCellClicked_eq canConnectTo arcs _ r c ev sp dp hsp hdp hr hc, hcell]
  simp only [hpop, hcan, Bool.false_eq_true, if_false, Bool.not_true]
  cases hex : connectionExists arcs ((pm.rebuilt arcs).getNode r true).getNodeId sp.getIndex
      ((pm.rebuilt arcs).getNode c false).getNodeId dp.getIndex
  · simp only [Bool.false_eq_true, if_false]
    exact ⟨_, _, rfl, by simp [MatrixState.connected, withCells, setCell]⟩
  · simp only [if_true]
    exact ⟨_, _, rfl, by simp [MatrixState.connected, withCells, setCell]⟩

/-- Witness for C14: the scenario nodes with the arc from output 1 of A to input
0 of B, a plain click on the connected cell (1, 0). -/
theorem click_after_rebuild_toggles_witness :
    (scenarioStart.rebuilt [(⟨1, 1, 2, 0⟩ : Arc)]).matrix.connected 1 0 = true ∧
    (∀ sn sp dn dp, connectionExists [(⟨1, 1, 2, 0⟩ : Arc)] sn sp dn dp =
      (findArc [(⟨1, 1, 2, 0⟩ : Arc)] sn sp dn dp).isSome) ∧
    ∃ pm1 msgs,
      (scenarioStart.rebuilt [(⟨1, 1, 2, 0⟩ : Arc)]).matrixCellClicked noSelfConnect
        [(⟨1, 1, 2, 0⟩ : Arc)] 1 0 ⟨false⟩ = some (pm1, msgs) ∧
      pm1.matrix.connected 1 0 =
        !(scenarioStart.rebuilt [(⟨1, 1, 2, 0⟩ : Arc)]).matrix.connected 1 0 :=
  ⟨by decide,
    click_after_rebuild_toggles noSelfConnect [(⟨1, 1, 2, 0⟩ : Arc)] scenarioStart
      (scenarioStart.rebuilt [(⟨1, 1, 2, 0⟩ : Arc)]) 1 0 ⟨false⟩
      (updateContent_rebuilt _ _) (by decide) (by decide) rfl (by decide)⟩

/-- C15: a cell click is local. For every click on a cell inside the matrix
whose row and column have a port, the handler returns a state in which the node
array, the observed tree, all index tables and port tables and the dimensions
are as before and every cell other than `(r, c)` has its prior value, and it
posts at most one message; when the click carries the popup modifier the state
is returned as it was and nothing is posted. -/
theorem click_is_local (canConnectTo : Node → Node → Bool) (arcs : List Arc)
    (pm : PatchMatrix) (r c : Nat) (ev : MouseEvent)
    (hrow : r < pm.outs.length) (hcol : c < pm.ins.length)
    (hr : r < pm.getNumRows) (hc : c < pm.getNumColumns) :
    ∃ pm1 msgs, pm.matrixCellClicked canConnectTo arcs r c ev = some (pm1, msgs) ∧
      msgs.length ≤ 1 ∧
      pm1.nodes = pm.nodes ∧ pm1.nodeModels = pm.nodeModels ∧
      pm1.audioOutIndexes = pm.audioOutIndexes ∧ pm1.audioOutChannels = pm.audioOutChannels ∧
      pm1.outs = pm.outs ∧
      pm1.audioInIndexes = pm.audioInIndexes ∧ pm1.audioInChannels = pm.audioInChannels ∧
      pm1.ins = pm.ins ∧
      pm1.getNumRows = pm.getNumRows ∧ pm1.getNumColumns = pm.getNumColumns ∧
      (∀ i j, ¬ (i = r ∧ j = c) → pm1.matrix.connected i j = pm.matrix.connected i j) ∧
      (ev.isPopupMenu = true → pm1 = pm ∧ msgs = []) := by
  have hsp : pm.getPort r true = some pm.outs[r] := by simp [getPort, hrow]
  have hdp : pm.getPort c false = some pm.ins[c] := by simp [getPort, hcol]
  have hset : ∀ v i j, ¬ (i = r ∧ j = c) →
      (pm.withCells (setCell pm.matrix.cells r c v)).matrix.connected i j =
        pm.matrix.connected i j := by
    intro v i j hne
    show setCell pm.matrix.cells r c v i j = pm.matrix.cells i j
    unfold setCell
    rw [if_neg hne]
  rw [matrixCellClicked_eq canConnectTo arcs pm r c ev _ _ hsp hdp hr hc]
  cases hpop : ev.isPopupMenu
  · simp only [Bool.false_eq_true, if_false]
    cases hcan : canConnectTo (pm.getNode r true) (pm.getNode c false)
    · exact ⟨_, _, rfl, by simp, rfl, rfl, rfl, rfl, rfl, rfl, rfl, rfl, rfl, rfl,
        hset false, fun h => h.elim⟩
    · cases hex : connectionExists arcs (pm.getNode r true).getNodeId pm.outs[r].getIndex
          (pm.getNode c false).getNodeId pm.ins[c].getIndex
      · exact ⟨_, _, rfl, by simp, rfl, rfl, rfl, rfl, rfl, rfl, rfl, rfl, rfl, rfl,
          hset true, fun h => h.elim⟩
      · exact ⟨_, _, rfl, by simp, rfl, rfl, rfl, rfl, rfl, rfl, rfl, rfl, rfl, rfl,
          hset false, fun h => h.elim⟩
  · exact ⟨pm, [], rfl, by simp, rfl, rfl, rfl, rfl, rfl, rfl, rfl, rfl, rfl, rfl,
      fun _ _ _ => rfl, fun _ => ⟨rfl, rfl⟩⟩

/-- Witness for C15: a plain click on cell (0, 1) of the scenario state. -/
theorem click_is_local_witness :
    ∃ pm1 msgs, scenarioState.matrixCellClicked noSelfConnect [] 0 1 ⟨false⟩ =
        some (pm1, msgs) ∧
      msgs.length ≤ 1 ∧
      pm1.nodes = scenarioState.nodes ∧ pm1.nodeModels = scenarioState.nodeModels ∧
      pm1.audioOutIndexes = scenarioState.audioOutIndexes ∧
      pm1.audioOutChannels = scenarioState.audioOutChannels ∧
      pm1.outs = scenarioState.outs ∧
      pm1.audioInIndexes = scenarioState.audioInIndexes ∧
      pm1.audioInChannels = scenarioState.audioInChannels ∧
      pm1.ins = scenarioState.ins ∧
      pm1.getNumRows = scenarioState.getNumRows ∧
      pm1.getNumColumns = scenarioState.getNumColumns ∧
      (∀ i j, ¬ (i = 0 ∧ j = 1) →
        pm1.matrix.connected i j = scenarioState.matrix.connected i j) ∧
      ((⟨false⟩ : MouseEvent).isPopupMenu = true → pm1 = scenarioState ∧ msgs = []) :=
  click_is_local noSelfConnect [] scenarioState 0 1 ⟨false⟩
    (by decide) (by decide) (by decide) (by decide)

end Element
